import Mathlib

/-!
Verification development for the JailJS AST interpreter (src/interpreter.ts).

The definitions below are a shallow embedding of the tree-walking evaluator
in `src/interpreter.ts`.  The embedded fragment covers the AST node kinds
exercised by the properties under study: literals, identifiers, `this`,
assignment (operator `=`), member access, calls, `new`, object literals,
function expressions, variable declarations, function declarations, blocks,
`while`, `break`/`continue`/`return`, `throw`, and `try`/`catch`/`finally`.
Each included case is translated directly from the corresponding case of
`evalNode` (or its helper) in the source; node kinds that none of the
properties touch (e.g. `switch`, `for`, labelled statements, unary/binary
operators) are simply absent from the fragment.

Modelling conventions:
  * JavaScript numbers are modelled as `Int`; no property under study
    depends on floating-point behaviour.
  * The source carries `return`/`break`/`continue` as thrown sentinel
    objects and recognises them by their `type` property.  Following the
    spec's own design note (§9), the embedding carries them on a dedicated
    channel (`Res.ret`/`Res.brk`/`Res.cont`) disjoint from user exceptions
    (`Res.exn`).  Programs that forge sentinel-shaped objects by hand are
    outside the modelled fragment.
  * Host-domain errors (ReferenceError, TypeError, the op-count timeout,
    ...) are thrown `Error` objects in the source and are catchable by
    script `try`/`catch` there; they are modelled as thrown values
    `Value.hostErr msg`, which travel on the same exception channel.
  * The ambient JavaScript object semantics that the interpreter delegates
    to (property lookup `obj[prop]`, `typeof`, truthiness, `Object.create`)
    is modelled by `hostGet`/`hostSet`/`nativeTypeof`/`jsTruthy`/the
    instance-allocation step of `new`.  Own properties and the prototype
    link of script-created objects are tracked; the implicit tail of the
    chain behaves like `Object.prototype` for the `constructor` key.
    Host methods that no studied property reads (e.g. `hasOwnProperty`,
    string methods) yield `undefined` in the model.
  * Interpreted functions are heap objects, as in the source; the fields
    `params`/`body`/`closure`/`name`/`__boundThis`/`__boundArgs`/
    `__originalFunc` (host-domain data in the source) live in an attached
    `FnData` record, while the script-visible properties
    (`__interpreted`, `prototype`, `call`, `bind`) are ordinary properties.
    The `apply` adapter is not attached (no studied property uses it).
  * Recursion is bounded by an explicit fuel parameter; `Res.noFuel`
    reports exhaustion and is a modelling artefact with no source
    counterpart.  The op counter (`checkOps`) is translated separately and
    exactly.  A ghost counter `ghostEvals` counts node evaluations exactly
    like `opCount` but is never reset and never read by the evaluator; it
    exists only so that theorems can speak about the total number of node
    evaluations a run performs.
-/

namespace JailJS

/-- Kind of a scope frame: function frames are var targets, block frames
are let/const targets (interpreter.ts, `Scope.type`). -/
inductive SKind where
  | function
  | block
deriving DecidableEq, Repr

/-- The built-in host constructors that the `constructor` read filter
checks against (interpreter.ts line 507). -/
inductive HostCtor where
  | object
  | array
  | string
  | number
  | boolean
  | function
  | regexp
  | date
  | error
deriving DecidableEq, Repr

/-- Host-native callables visible to the interpreter: the `eval` global,
the `call`/`bind` adapters attached to interpreted functions by
`createFunction`, their bound-function variants, and the wrapper placed
around interpreted functions passed to native callees.  Adapters refer to
the function object by heap address; the bound adapters read the bound
data from that object's (immutable, model-internal) function record. -/
inductive HostFn where
  | evalFn
  | callAdapter (f : Nat)
  | bindAdapter (f : Nat)
  | boundCallAdapter (b : Nat)
  | boundBindAdapter (b : Nat)
  | wrapped (f : Nat)
deriving DecidableEq, Repr

/-- Script-visible values.  `ref` addresses a heap object (script objects
and interpreted functions), `ctor` is a built-in host constructor passed
through the default globals, `host` a host-native callable, `hostErr` an
opaque host `Error` object carrying its message, and `hostOpaque` any
other opaque host value. -/
inductive Value where
  | undef
  | null
  | bool (b : Bool)
  | num (n : Int)
  | str (s : String)
  | ref (r : Nat)
  | ctor (c : HostCtor)
  | host (h : HostFn)
  | hostErr (msg : String)
  | hostOpaque (tag : String)
deriving DecidableEq, Repr

/-- Association-list lookup used for binding tables and property maps
(JavaScript `Record` / plain-object semantics: string keys, first match). -/
def assocGet (l : List (String × Value)) (k : String) : Option Value :=
  match l with
  | [] => none
  | (k', v) :: rest => if k' = k then some v else assocGet rest k

/-- Association-list update: overwrite an existing key in place, else
append (JavaScript property assignment preserves insertion order). -/
def assocSet (l : List (String × Value)) (k : String) (v : Value) :
    List (String × Value) :=
  match l with
  | [] => [(k, v)]
  | (k', v') :: rest =>
      if k' = k then (k', v) :: rest else (k', v') :: assocSet rest k v

mutual

inductive Expr where
  | numLit (n : Int)
  | strLit (s : String)
  | boolLit (b : Bool)
  | nullLit
  | ident (name : String)
  | thisE
  | assignId (name : String) (rhs : Expr)
  | assignMember (obj : Expr) (prop : PropK) (rhs : Expr)
  | member (obj : Expr) (prop : PropK)
  | callE (callee : Expr) (args : List Expr)
  | newE (callee : Expr) (args : List Expr)
  | objLit (props : List (String × Expr))
  | funcExpr (name : Option String) (params : List String) (body : List Stmt)

/-- Property keys of a member expression: a static identifier name
(o.p) or a computed expression (o[e]), cf. node.computed. -/
inductive PropK where
  | name (s : String)
  | computed (e : Expr)

inductive Stmt where
  | exprStmt (e : Expr)
  | varDecl (kind : DeclKind) (decls : List (String × Option Expr))
  | funcDecl (name : String) (params : List String) (body : List Stmt)
  | block (body : List Stmt)
  | whileStmt (test : Expr) (body : Stmt)
  | breakStmt (label : Option String)
  | continueStmt (label : Option String)
  | returnStmt (arg : Option Expr)
  | throwStmt (arg : Expr)
  | tryStmt (blk : Stmt) (handler : Option (Option String × Stmt))
      (finalizer : Option Stmt)

inductive DeclKind where
  | var
  | letK
  | constK

end

/-- A parsed program: directive prologue values plus the statement list
(babel `Program.directives` / `Program.body`). -/
structure Program where
  directives : List String
  body : List Stmt

/-- Host-domain record of an interpreted function (the source stores
these as properties of the function object; scripts in the modelled
fragment never write to them, so the model keeps them internal).
`boundThis` is `Value.undef` when the function is unbound — exactly the
representation the source's check `func.__boundThis !== undefined`
conflates with a bound `undefined`. -/
structure FnData where
  params : List String
  body : Stmt
  closure : Nat
  name : Option String
  boundThis : Value
  boundArgs : List Value
  original : Option Nat

/-- A heap object: own properties, an optional interpreted-function
record, and an optional prototype link to another heap object. -/
structure Obj where
  props : List (String × Value)
  fn : Option FnData
  proto : Option Nat

/-- A scope frame (interpreter.ts `Scope`): parent link, binding table,
kind tag. -/
structure Frame where
  parent : Option Nat
  vars : List (String × Value)
  kind : SKind

/-- Mutable interpreter state: the scope store (frame 0 is the global
frame), the object heap, the op counter, and the ghost counter of node
evaluations (specification instrumentation only — see the header). -/
structure St where
  frames : List Frame
  objs : List Obj
  opCount : Nat
  ghostEvals : Nat

/-- Interpreter configuration: the op ceiling (`none` models the default
`Infinity`) and the optional parse callback enabling `eval`. -/
structure Cfg where
  maxOps : Option Nat
  parse : Option (String → Program)

/-- Read a frame by index. -/
def St.frame (st : St) (i : Nat) : Option Frame :=
  st.frames[i]?

/-- Replace the binding table of frame `i`. -/
def St.setVars (st : St) (i : Nat) (vars : List (String × Value)) : St :=
  { st with
    frames := st.frames.set i { (st.frames[i]?.getD ⟨none, [], .block⟩) with
      vars := vars } }

/-- Read a heap object. -/
def St.obj (st : St) (r : Nat) : Option Obj :=
  st.objs[r]?

/-- Replace heap object `r`. -/
def St.setObj (st : St) (r : Nat) (o : Obj) : St :=
  { st with objs := st.objs.set r o }

/-- Allocate a heap object, returning its address. -/
def St.alloc (st : St) (o : Obj) : Nat × St :=
  (st.objs.length, { st with objs := st.objs ++ [o] })

/-- Allocate a scope frame, returning its index
(interpreter.ts `createScope`). -/
def St.allocFrame (st : St) (parent : Option Nat) (kind : SKind) :
    Nat × St :=
  (st.frames.length, { st with frames := st.frames ++ [⟨parent, [], kind⟩] })

/-- Evaluation results.  `ok` is normal completion; `exn` a thrown value
(user exceptions and host errors alike, as in the source); `ret`, `brk`
and `cont` are the control-flow signals the source throws as sentinel
objects; `noFuel` is the model's fuel-exhaustion artefact. -/
inductive Res (α : Type) where
  | ok (a : α)
  | exn (v : Value)
  | brk (label : Option String)
  | cont (label : Option String)
  | ret (v : Value)
  | noFuel
deriving DecidableEq, Repr

/-- Coerce a non-`ok` result to another payload type when propagating. -/
def Res.castErr : Res α → Res β
  | .ok _ => .noFuel
  | .exn v => .exn v
  | .brk l => .brk l
  | .cont l => .cont l
  | .ret v => .ret v
  | .noFuel => .noFuel

/-- Timeout error thrown by `checkOps`
(interpreter.ts line 219). -/
def timeoutV : Value :=
  .hostErr "Execution timeout: maximum operations exceeded"

/-- Op-counter check at the head of each node evaluation (interpreter.ts
`checkOps`): pre-increment the counter, then fail when it exceeds the
ceiling.  Also bumps the ghost node-evaluation counter. -/
def checkOps (cfg : Cfg) (st : St) : St × Bool :=
  let st' := { st with opCount := st.opCount + 1,
                       ghostEvals := st.ghostEvals + 1 }
  (st', match cfg.maxOps with
        | some m => decide (st'.opCount > m)
        | none => false)

/-- Variable lookup along the scope chain (interpreter.ts `getVar`),
bounded by fuel; `none` is fuel exhaustion. -/
def getVarF (fuel : Nat) (st : St) (idx : Nat) (name : String) :
    Option (Res Value) :=
  match fuel with
  | 0 => none
  | fuel + 1 =>
      match st.frame idx with
      | none => some (.exn (.hostErr (name ++ " is not defined")))
      | some f =>
          match assocGet f.vars name with
          | some v => some (.ok v)
          | none =>
              match f.parent with
              | some p => getVarF fuel st p name
              | none => some (.exn (.hostErr (name ++ " is not defined")))

/-- Variable assignment along the scope chain (interpreter.ts `setVar`):
mutate the first frame that has the binding; if no frame in the chain
has it, create the binding in the frame where the walk ended (the
parentless root frame). -/
def setVarF (fuel : Nat) (st : St) (idx : Nat) (name : String) (v : Value) :
    Option St :=
  match fuel with
  | 0 => none
  | fuel + 1 =>
      match st.frame idx with
      | none => some st
      | some f =>
          if (assocGet f.vars name).isSome then
            some (st.setVars idx (assocSet f.vars name v))
          else
            match f.parent with
            | some p => setVarF fuel st p name v
            | none => some (st.setVars idx (assocSet f.vars name v))

/-- Walk past block frames to the nearest function frame
(interpreter.ts `declareVar`), returning the target frame index. -/
def varTargetF (fuel : Nat) (st : St) (idx : Nat) : Nat :=
  match fuel with
  | 0 => idx
  | fuel + 1 =>
      match st.frame idx with
      | none => idx
      | some f =>
          match f.parent, f.kind with
          | some p, .block => varTargetF fuel st p
          | _, _ => idx

/-- Declare a var-kinded variable in the nearest function frame
(interpreter.ts `declareVar`). -/
def declareVarF (fuel : Nat) (st : St) (idx : Nat) (name : String)
    (v : Value) : St :=
  let t := varTargetF fuel st idx
  st.setVars t (assocSet ((st.frame t).map Frame.vars |>.getD []) name v)

/-- Declare a let/const variable in the current frame
(interpreter.ts `declareLet`). -/
def declareLet (st : St) (idx : Nat) (name : String) (v : Value) : St :=
  st.setVars idx (assocSet ((st.frame idx).map Frame.vars |>.getD []) name v)

/-- Binding table of frame `i` (empty when the index is invalid, which the
source's types rule out). -/
def frameVars (st : St) (i : Nat) : List (String × Value) :=
  ((st.frame i).map Frame.vars).getD []

/-- Bind `name` to `v` directly in frame `i`
(the source's `scope.vars[name] = value`). -/
def bindInFrame (st : St) (i : Nat) (name : String) (v : Value) : St :=
  st.setVars i (assocSet (frameVars st i) name v)

/-- Native JavaScript typeof of a modelled value.  Note that interpreted
functions are plain objects in the source, so their native typeof is
"object" (the script-level typeof operator special-cases them, but that
operator is outside the fragment). -/
def nativeTypeof : Value → String
  | .undef => "undefined"
  | .null => "object"
  | .bool _ => "boolean"
  | .num _ => "number"
  | .str _ => "string"
  | .ref _ => "object"
  | .ctor _ => "function"
  | .host _ => "function"
  | .hostErr _ => "object"
  | .hostOpaque _ => "object"

/-- JavaScript truthiness of a modelled value. -/
def jsTruthy : Value → Bool
  | .undef => false
  | .null => false
  | .bool b => b
  | .num n => decide (n ≠ 0)
  | .str s => decide (s ≠ "")
  | _ => true

/-- JavaScript ToString coercion of a computed property key.  Object keys
(host ToString of objects) are not needed by any studied property and map
to a fixed tag. -/
def propKeyOf : Value → String
  | .str s => s
  | .num n => toString n
  | .bool b => if b then "true" else "false"
  | .undef => "undefined"
  | .null => "null"
  | _ => "object-key"

/-- Source-language name of a built-in host constructor. -/
def HostCtor.nameStr : HostCtor → String
  | .object => "Object"
  | .array => "Array"
  | .string => "String"
  | .number => "Number"
  | .boolean => "Boolean"
  | .function => "Function"
  | .regexp => "RegExp"
  | .date => "Date"
  | .error => "Error"

/-- Own-then-prototype property lookup on a heap object, modelling the
ambient JavaScript read obj[prop].  The implicit tail of every chain
behaves like Object.prototype: it supplies the `constructor` key (the
built-in `Object`) and nothing else that the studied properties read.
The walk is bounded because JavaScript itself rejects cyclic prototype
chains. -/
def protoLookup (fuelW : Nat) (st : St) (r : Nat) (p : String) : Value :=
  match fuelW with
  | 0 => .undef
  | fuelW + 1 =>
      match st.obj r with
      | none => .undef
      | some o =>
          match assocGet o.props p with
          | some v => v
          | none =>
              match o.proto with
              | some q => protoLookup fuelW st q p
              | none => if p = "constructor" then .ctor .object else (.undef)

/-- Ambient JavaScript property read obj[prop], used by the
MemberExpression case after the reflective-access filter and by the
interpreter's own host-level reads.  Reads on `null`/`undefined` throw
the host TypeError; reads on primitives consult the corresponding
wrapper constructor for the `constructor` key (other wrapper-prototype
methods are not needed by the studied properties and yield undefined). -/
def hostGet (st : St) (v : Value) (p : String) : Res Value :=
  match v with
  | .undef =>
      .exn (.hostErr ("Cannot read properties of undefined (reading " ++ p ++ ")"))
  | .null =>
      .exn (.hostErr ("Cannot read properties of null (reading " ++ p ++ ")"))
  | .bool _ => .ok (if p = "constructor" then .ctor .boolean else .undef)
  | .num _ => .ok (if p = "constructor" then .ctor .number else .undef)
  | .str s => .ok (if p = "constructor" then .ctor .string
      else if p = "length" then .num s.length else .undef)
  | .ref r => .ok (protoLookup (st.objs.length + 1) st r p)
  | .ctor _ => .ok (if p = "constructor" then .ctor .function
      else if p = "prototype" then .hostOpaque "host-prototype" else .undef)
  | .host _ => .ok (if p = "constructor" then .ctor .function else .undef)
  | .hostErr m => .ok (if p = "constructor" then .ctor .error
      else if p = "message" then .str m else .undef)
  | .hostOpaque _ => .ok (.undef)

/-- Ambient JavaScript property write obj[prop] = w (no write filter in
the source).  Writes to `null`/`undefined` throw; writes to primitives
and opaque host values are silently dropped (non-strict mode; mutation
of opaque host objects is outside the core).  Assigning `__proto__` on a
script object sets its prototype link (the ambient setter), with
non-object values ignored. -/
def hostSet (st : St) (v : Value) (p : String) (w : Value) : Res Unit × St :=
  match v with
  | .undef =>
      (.exn (.hostErr ("Cannot set properties of undefined (setting " ++ p ++ ")")), st)
  | .null =>
      (.exn (.hostErr ("Cannot set properties of null (setting " ++ p ++ ")")), st)
  | .ref r =>
      match st.obj r with
      | none => (.ok (), st)
      | some o =>
          if p = "__proto__" then
            match w with
            | .ref q => (.ok (), st.setObj r { o with proto := some q })
            | .null => (.ok (), st.setObj r { o with proto := none })
            | _ => (.ok (), st)
          else
            (.ok (), st.setObj r { o with props := assocSet o.props p w })
  | _ => (.ok (), st)

/-- The nine built-in constructors of the `constructor` read filter, in
source order (interpreter.ts line 507). -/
def builtinCtors : List Value :=
  [.ctor .object, .ctor .array, .ctor .string, .ctor .number, .ctor .boolean,
   .ctor .function, .ctor .regexp, .ctor .date, .ctor .error]

/-- The test `[Object, ...].includes(obj.constructor)` of the
MemberExpression filter: read the receiver's `constructor` through the
ambient lookup and compare against the built-in list.  Only called on
non-null, non-undefined receivers, for which `hostGet` cannot throw. -/
def ctorIsBuiltin (st : St) (v : Value) : Bool :=
  match hostGet st v "constructor" with
  | .ok cv => decide (cv ∈ builtinCtors)
  | _ => false

/-- Wrap an interpreted-function argument in a host-invocable adapter at
a native call boundary (interpreter.ts lines 532-537). -/
def wrapArg (st : St) (v : Value) : Value :=
  match v with
  | .ref r =>
      match st.obj r with
      | some o => if o.fn.isSome then .host (.wrapped r) else v
      | none => v
  | _ => v

/-- Materialise an interpreted function (interpreter.ts
`createFunction`): allocate the fresh `prototype` object and the
function object carrying the `__interpreted` marker, the `prototype`
property and the `call`/`bind` adapters.  The fragment contains no arrow
functions, so the prototype property is always attached. -/
def createFunction (st : St) (name : Option String) (params : List String)
    (body : List Stmt) (closure : Nat) : Nat × St :=
  let (protoRef, st1) := st.alloc { props := [], fn := none, proto := none }
  let fnRef := st1.objs.length
  let fnObj : Obj :=
    { props := [("__interpreted", .bool true),
                ("prototype", .ref protoRef),
                ("call", .host (.callAdapter fnRef)),
                ("bind", .host (.bindAdapter fnRef))],
      fn := some { params := params, body := .block body, closure := closure,
                   name := name, boundThis := .undef, boundArgs := [],
                   original := none },
      proto := none }
  st1.alloc fnObj

/-- Bind the hoisted var names of one declaration list to undefined,
unconditionally, in source order (interpreter.ts lines 136-140). -/
def hoistVarNames (decls : List (String × Option Expr)) (scope : Nat)
    (st : St) : St :=
  match decls with
  | [] => st
  | (name, _) :: rest => hoistVarNames rest scope (bindInFrame st scope name .undef)

/-- Hoisting pre-pass over a statement list (interpreter.ts
`hoistDeclarations`): walk the immediate statements in order; function
declarations are materialised and bound; var declarations are bound to
undefined (without checking for an existing binding). -/
def hoistDecls (stmts : List Stmt) (scope : Nat) (st : St) : St :=
  match stmts with
  | [] => st
  | s :: rest =>
      let st' :=
        match s with
        | .funcDecl name params body =>
            let (r, st1) := createFunction st (some name) params body scope
            bindInFrame st1 scope name (.ref r)
        | .varDecl .var decls => hoistVarNames decls scope st
        | _ => st
      hoistDecls rest scope st'

/-- Bind each formal parameter to the corresponding argument, missing
arguments to undefined (interpreter.ts lines 979-981). -/
def bindParams (params : List String) (args : List Value) (fs : Nat)
    (st : St) : St :=
  match params, args with
  | [], _ => st
  | p :: ps, [] => bindParams ps [] fs (bindInFrame st fs p .undef)
  | p :: ps, a :: rest => bindParams ps rest fs (bindInFrame st fs p a)

/-- The `arguments` object: the raw argument list as an indexable host
array, modelled as an object with index keys and a length property. -/
def argsObj (args : List Value) : Obj :=
  { props := (args.enum.map fun iv => (toString iv.fst, iv.snd)) ++
      [("length", .num (args.length : Int))],
    fn := none,
    proto := none }

/-- A fresh empty script object with the given prototype link. -/
def emptyObj (proto : Option Nat) : Obj :=
  { props := [], fn := none, proto := proto }

/-- Function record of a bound function produced by the bind adapter:
the original's parameters, body, closure and name, plus the bound this,
the bound argument prefix and the link to the original
(interpreter.ts lines 919-928). -/
def boundFdOf (f : Nat) (fd : FnData) (thisArg : Value)
    (boundArgs : List Value) : FnData :=
  { params := fd.params, body := fd.body, closure := fd.closure,
    name := fd.name, boundThis := thisArg, boundArgs := boundArgs,
    original := some f }

/-- The bound function object allocated at address `b` by the bind
adapter of the function object `f`: the interpreted marker, its own
call/bind adapters, and the bound function record. -/
def boundObjOf (b f : Nat) (fd : FnData) (thisArg : Value)
    (boundArgs : List Value) : Obj :=
  { props := [("__interpreted", .bool true),
              ("call", .host (.boundCallAdapter b)),
              ("bind", .host (.boundBindAdapter b))],
    fn := some (boundFdOf f fd thisArg boundArgs),
    proto := none }

set_option maxHeartbeats 3200000

mutual

/-- One node evaluation (interpreter.ts `evalNode`), expression nodes:
bump the op counter, fail on ceiling excess, then dispatch on the node.
Fuel is a modelling bound on recursion depth, separate from the op
counter. -/
def evalExpr (fuel : Nat) (cfg : Cfg) (e : Expr) (scope : Nat) (st : St) :
    Res Value × St :=
  match fuel with
  | 0 => (.noFuel, st)
  | fuel + 1 =>
      let (st1, timedOut) := checkOps cfg st
      if timedOut then (.exn timeoutV, st1) else
      match e with
      | .numLit n => (.ok (.num n), st1)
      | .strLit s => (.ok (.str s), st1)
      | .boolLit b => (.ok (.bool b), st1)
      | .nullLit => (.ok .null, st1)
      | .ident name =>
          match getVarF fuel st1 scope name with
          | some r => (r, st1)
          | none => (.noFuel, st1)
      | .thisE =>
          match getVarF fuel st1 scope "this" with
          | some r => (r, st1)
          | none => (.noFuel, st1)
      | .assignId name rhs =>
          -- AssignmentExpression, Identifier target, operator "=":
          -- evaluate the right-hand side, then setVar; value is the result
          let (rv, st2) := evalExpr fuel cfg rhs scope st1
          match rv with
          | .ok v =>
              match setVarF fuel st2 scope name v with
              | some st3 => (.ok v, st3)
              | none => (.noFuel, st2)
          | r => (r, st2)
      | .assignMember objE prop rhs =>
          -- AssignmentExpression, MemberExpression target, operator "=":
          -- right-hand side first, then the object, then the key; no filter
          let (rv, st2) := evalExpr fuel cfg rhs scope st1
          match rv with
          | .ok v =>
              let (ro, st3) := evalExpr fuel cfg objE scope st2
              match ro with
              | .ok ov =>
                  let (rk, st4) := evalPropKey fuel cfg prop scope st3
                  match rk with
                  | .ok key =>
                      let (rs, st5) := hostSet st4 ov key v
                      match rs with
                      | .ok _ => (.ok v, st5)
                      | r => (r.castErr, st5)
                  | r => (r.castErr, st4)
              | r => (r, st3)
          | r => (r, st2)
      | .member objE prop =>
          -- MemberExpression read with the reflective-access filter
          let (ro, st2) := evalExpr fuel cfg objE scope st1
          match ro with
          | .ok ov =>
              let (rk, st3) := evalPropKey fuel cfg prop scope st2
              match rk with
              | .ok key =>
                  if key = "__proto__" then (.ok .undef, st3)
                  else if key = "constructor" ∧ ov ≠ .null ∧ ov ≠ .undef ∧
                      ctorIsBuiltin st3 ov then (.ok .undef, st3)
                  else (hostGet st3 ov key, st3)
              | r => (r.castErr, st3)
          | r => (r, st2)
      | .callE callee args =>
          let (rc, st2) := evalExpr fuel cfg callee scope st1
          match rc with
          | .ok cv =>
              let (ra, st3) := evalArgs fuel cfg args scope st2
              match ra with
              | .ok avs =>
                  -- this-context: the receiver is re-evaluated when the
                  -- callee syntax is a member expression
                  let (rt, st4) :=
                    match callee with
                    | .member objE _ => evalExpr fuel cfg objE scope st3
                    | _ => (.ok .undef, st3)
                  match rt with
                  | .ok thisCtx =>
                      match cv with
                      | .host h =>
                          -- native function: wrap interpreted arguments;
                          -- the modelled host callables ignore their this
                          hostCall fuel cfg h (avs.map (wrapArg st4)) st4
                      | .ctor c =>
                          -- calling a passed-through host constructor as a
                          -- function: host-domain behaviour, opaque to the core
                          (.ok (.hostOpaque ("host-call:" ++ c.nameStr)), st4)
                      | _ => callFunction fuel cfg cv avs thisCtx st4
                  | r => (r, st4)
              | r => (r.castErr, st3)
          | r => (r, st2)
      | .newE callee args =>
          let (rc, st2) := evalExpr fuel cfg callee scope st1
          match rc with
          | .ok cv =>
              let (ra, st3) := evalArgs fuel cfg args scope st2
              match ra with
              | .ok avs =>
                  match cv with
                  | .ref r =>
                      match (st3.obj r).bind Obj.fn with
                      | some _ =>
                          -- interpreted constructor: fresh instance whose
                          -- prototype link is the function's prototype
                          -- property (Object.create(func.prototype || {}))
                          let protoV :=
                            match hostGet st3 (.ref r) "prototype" with
                            | .ok v => v
                            | _ => .undef
                          let instOf : Res (Nat × St) :=
                            if jsTruthy protoV then
                              match protoV with
                              | .ref p => .ok (st3.alloc (emptyObj (some p)))
                              | .ctor _ | .host _ | .hostErr _ | .hostOpaque _ =>
                                  -- host prototype objects are not tracked
                                  .ok (st3.alloc (emptyObj none))
                              | _ =>
                                  .exn (.hostErr
                                    "Object prototype may only be an Object or null")
                            else
                              .ok (st3.alloc (emptyObj none))
                          match instOf with
                          | .ok (inst, st4) =>
                              let (rr, st5) :=
                                callFunction fuel cfg (.ref r) avs (.ref inst) st4
                              match rr with
                              | .ok res =>
                                  -- return the constructor's result when it is
                                  -- defined and of native object type, else the
                                  -- instance (interpreter.ts line 556)
                                  (.ok (if res ≠ .undef ∧ nativeTypeof res = "object"
                                    then res else .ref inst), st5)
                              | r => (r, st5)
                          | r => (r.castErr, st3)
                      | none =>
                          -- new on a plain object: host TypeError
                          (.exn (.hostErr "Value is not a constructor"), st3)
                  | .ctor c =>
                      -- native constructor: host-domain construction, opaque
                      let _ := avs.map (wrapArg st3)
                      (.ok (.hostOpaque ("host-new:" ++ c.nameStr)), st3)
                  | _ => (.exn (.hostErr "Value is not a constructor"), st3)
              | r => (r.castErr, st3)
          | r => (r, st2)
      | .objLit props =>
          let (r, st2) := st1.alloc (emptyObj none)
          let (ru, st3) := evalObjProps fuel cfg props r scope st2
          match ru with
          | .ok _ => (.ok (.ref r), st3)
          | r2 => (r2.castErr, st3)
      | .funcExpr name params body =>
          let (r, st2) := createFunction st1 name params body scope
          (.ok (.ref r), st2)
  termination_by fuel

/-- Resolve a member-expression key: static identifier name, or the
evaluated (and ToString-coerced) computed expression. -/
def evalPropKey (fuel : Nat) (cfg : Cfg) (p : PropK) (scope : Nat) (st : St) :
    Res String × St :=
  match fuel with
  | 0 => (.noFuel, st)
  | fuel + 1 =>
      match p with
      | .name s => (.ok s, st)
      | .computed e =>
          let (r, st') := evalExpr fuel cfg e scope st
          match r with
          | .ok v => (.ok (propKeyOf v), st')
          | r2 => (r2.castErr, st')
  termination_by fuel

/-- Evaluate a call-argument list left to right. -/
def evalArgs (fuel : Nat) (cfg : Cfg) (es : List Expr) (scope : Nat) (st : St) :
    Res (List Value) × St :=
  match fuel with
  | 0 => (.noFuel, st)
  | fuel + 1 =>
      match es with
      | [] => (.ok [], st)
      | e :: rest =>
          let (r, st') := evalExpr fuel cfg e scope st
          match r with
          | .ok v =>
              let (rs, st'') := evalArgs fuel cfg rest scope st'
              match rs with
              | .ok vs => (.ok (v :: vs), st'')
              | r2 => (r2, st'')
          | r2 => (r2.castErr, st')
  termination_by fuel

/-- Evaluate object-literal property entries in order, storing each value
on the freshly allocated object. -/
def evalObjProps (fuel : Nat) (cfg : Cfg) (props : List (String × Expr))
    (r : Nat) (scope : Nat) (st : St) : Res Unit × St :=
  match fuel with
  | 0 => (.noFuel, st)
  | fuel + 1 =>
      match props with
      | [] => (.ok (), st)
      | (key, ve) :: rest =>
          let (rv, st') := evalExpr fuel cfg ve scope st
          match rv with
          | .ok v =>
              let st'' :=
                match st'.obj r with
                | some o => st'.setObj r { o with props := assocSet o.props key v }
                | none => st'
              evalObjProps fuel cfg rest r scope st''
          | r2 => (r2.castErr, st')
  termination_by fuel

/-- One node evaluation (interpreter.ts `evalNode`), statement nodes. -/
def evalStmt (fuel : Nat) (cfg : Cfg) (s : Stmt) (scope : Nat) (st : St) :
    Res Value × St :=
  match fuel with
  | 0 => (.noFuel, st)
  | fuel + 1 =>
      let (st1, timedOut) := checkOps cfg st
      if timedOut then (.exn timeoutV, st1) else
      match s with
      | .exprStmt e => evalExpr fuel cfg e scope st1
      | .varDecl kind decls => evalVarDecls fuel cfg kind decls scope st1
      | .funcDecl _ _ _ =>
          -- the declaration was materialised by the hoisting pre-pass
          (.ok .undef, st1)
      | .block body =>
          let (bs, st2) := st1.allocFrame (some scope) .block
          evalStmtsAcc fuel cfg body bs st2 .undef
      | .whileStmt test body => evalWhile fuel cfg test body scope st1 .undef
      | .breakStmt l => (.brk l, st1)
      | .continueStmt l => (.cont l, st1)
      | .returnStmt arg =>
          match arg with
          | some e =>
              let (rv, st2) := evalExpr fuel cfg e scope st1
              match rv with
              | .ok v => (.ret v, st2)
              | r => (r, st2)
          | none => (.ret .undef, st1)
      | .throwStmt e =>
          let (rv, st2) := evalExpr fuel cfg e scope st1
          match rv with
          | .ok v => (.exn v, st2)
          | r => (r, st2)
      | .tryStmt blk handler finalizer =>
          let (rb, st2) := evalStmt fuel cfg blk scope st1
          match rb with
          | .noFuel => (.noFuel, st2)
          | .brk l =>
              -- control-flow signal: rethrown before the handler; the
              -- host-level finally clause still runs the finalizer
              runFinalizer fuel cfg finalizer scope st2 (.brk l)
          | .cont l => runFinalizer fuel cfg finalizer scope st2 (.cont l)
          | .ret v => runFinalizer fuel cfg finalizer scope st2 (.ret v)
          | .ok v => runFinalizer fuel cfg finalizer scope st2 (.ok v)
          | .exn e =>
              match handler with
              | none =>
                  -- caughtError = e; after a normal finalizer the source
                  -- rethrows only when caughtError !== null, and otherwise
                  -- returns the (unassigned) result, i.e. undefined
                  runFinalizer fuel cfg finalizer scope st2
                    (if e = .null then .ok .undef else .exn e)
              | some (param, hbody) =>
                  let (cs, st3) := st2.allocFrame (some scope) .block
                  let st4 :=
                    match param with
                    | some pn => bindInFrame st3 cs pn e
                    | none => st3
                  let (rh, st5) := evalStmt fuel cfg hbody cs st4
                  match rh with
                  | .noFuel => (.noFuel, st5)
                  | .ok v => runFinalizer fuel cfg finalizer scope st5 (.ok v)
                  | .exn e2 =>
                      runFinalizer fuel cfg finalizer scope st5
                        (if e2 = .null then .ok .undef else .exn e2)
                  | .brk l => runFinalizer fuel cfg finalizer scope st5 (.brk l)
                  | .cont l => runFinalizer fuel cfg finalizer scope st5 (.cont l)
                  | .ret v => runFinalizer fuel cfg finalizer scope st5 (.ret v)
  termination_by fuel

/-- Run the optional finalizer; a normal finalizer lets the pending
disposition through, an abrupt one supersedes it (the host-level
semantics of the source's finally clause). -/
def runFinalizer (fuel : Nat) (cfg : Cfg) (fin : Option Stmt) (scope : Nat)
    (st : St) (pending : Res Value) : Res Value × St :=
  match fuel with
  | 0 => (.noFuel, st)
  | fuel + 1 =>
      match fin with
      | none => (pending, st)
      | some f =>
          let (rf, st') := evalStmt fuel cfg f scope st
          match rf with
          | .ok _ => (pending, st')
          | r => (r, st')
  termination_by fuel

/-- Evaluate the declarator list of a VariableDeclaration: var-kinded
declarators assign through `declareVar` only when an initializer is
present (the binding itself was hoisted); let/const always assign in the
current frame.  The statement's value is undefined. -/
def evalVarDecls (fuel : Nat) (cfg : Cfg) (kind : DeclKind)
    (decls : List (String × Option Expr)) (scope : Nat) (st : St) :
    Res Value × St :=
  match fuel with
  | 0 => (.noFuel, st)
  | fuel + 1 =>
      match decls with
      | [] => (.ok .undef, st)
      | (name, init) :: rest =>
          match kind with
          | .var =>
              match init with
              | some e =>
                  let (rv, st') := evalExpr fuel cfg e scope st
                  match rv with
                  | .ok v =>
                      evalVarDecls fuel cfg kind rest scope
                        (declareVarF (st'.frames.length + 1) st' scope name v)
                  | r => (r, st')
              | none => evalVarDecls fuel cfg kind rest scope st
          | _ =>
              match init with
              | some e =>
                  let (rv, st') := evalExpr fuel cfg e scope st
                  match rv with
                  | .ok v =>
                      evalVarDecls fuel cfg kind rest scope
                        (declareLet st' scope name v)
                  | r => (r, st')
              | none =>
                  evalVarDecls fuel cfg kind rest scope
                    (declareLet st scope name .undef)
  termination_by fuel

/-- Statement-list evaluation with the source's threading of `result`
(each statement's value overwrites the accumulator; abrupt results
propagate).  Used for Program and BlockStatement bodies. -/
def evalStmtsAcc (fuel : Nat) (cfg : Cfg) (stmts : List Stmt) (scope : Nat)
    (st : St) (acc : Value) : Res Value × St :=
  match fuel with
  | 0 => (.noFuel, st)
  | fuel + 1 =>
      match stmts with
      | [] => (.ok acc, st)
      | s :: rest =>
          let (r, st') := evalStmt fuel cfg s scope st
          match r with
          | .ok v => evalStmtsAcc fuel cfg rest scope st' v
          | r2 => (r2, st')
  termination_by fuel

/-- The while loop (interpreter.ts WhileStatement case): re-evaluate the
test before each iteration; unlabelled break exits with the accumulated
result, unlabelled continue proceeds, everything else propagates. -/
def evalWhile (fuel : Nat) (cfg : Cfg) (test : Expr) (body : Stmt)
    (scope : Nat) (st : St) (acc : Value) : Res Value × St :=
  match fuel with
  | 0 => (.noFuel, st)
  | fuel + 1 =>
      let (rt, st1) := evalExpr fuel cfg test scope st
      match rt with
      | .ok tv =>
          if jsTruthy tv then
            let (rb, st2) := evalStmt fuel cfg body scope st1
            match rb with
            | .ok v => evalWhile fuel cfg test body scope st2 v
            | .cont none => evalWhile fuel cfg test body scope st2 acc
            | .brk none => (.ok acc, st2)
            | r => (r, st2)
          else (.ok acc, st1)
      | r => (r, st1)
  termination_by fuel

/-- Invoke an interpreted function (interpreter.ts `callFunction`):
reject non-interpreted callees, substitute bound this/args, build the
function frame on the captured closure, self-bind the name, hoist the
body, bind parameters, `arguments` and `this`, then evaluate the body,
converting a return signal into the result value. -/
def callFunction (fuel : Nat) (cfg : Cfg) (funcV : Value) (args : List Value)
    (thisCtx : Value) (st : St) : Res Value × St :=
  match fuel with
  | 0 => (.noFuel, st)
  | fuel + 1 =>
      match funcV with
      | .ref r =>
          match (st.obj r).bind Obj.fn with
          | some fd =>
              let thisCtx2 := if fd.boundThis ≠ .undef then fd.boundThis else thisCtx
              let args2 := if fd.boundThis ≠ .undef then fd.boundArgs ++ args else args
              let r2 := if fd.boundThis ≠ .undef then fd.original.getD r else r
              match (st.obj r2).bind Obj.fn with
              | some fd2 =>
                  let (fs, st1) := st.allocFrame (some fd2.closure) .function
                  let st2 :=
                    match fd2.name with
                    | some n => bindInFrame st1 fs n (.ref r2)
                    | none => st1
                  let st3 :=
                    match fd2.body with
                    | .block stmts => hoistDecls stmts fs st2
                    | _ => st2
                  let st4 := bindParams fd2.params args2 fs st3
                  let (argRef, st5) := st4.alloc (argsObj args2)
                  let st6 := bindInFrame st5 fs "arguments" (.ref argRef)
                  let st7 := bindInFrame st6 fs "this" thisCtx2
                  -- the fragment's function bodies are always blocks, so the
                  -- body evaluation returns undefined unless a return signal
                  -- is converted here
                  let (rb, st8) := evalStmt fuel cfg fd2.body fs st7
                  match rb with
                  | .ok _ => (.ok .undef, st8)
                  | .ret v => (.ok v, st8)
                  | r3 => (r3, st8)
              | none => (.exn (.hostErr "Value is not a function"), st)
          | none => (.exn (.hostErr "Value is not a function"), st)
      | _ => (.exn (.hostErr "Value is not a function"), st)
  termination_by fuel

/-- Invoke a modelled host-native callable.  All adapters funnel back
into `callFunction`; the eval global parses and recursively evaluates
(resetting the op counter inside `evaluateF`). -/
def hostCall (fuel : Nat) (cfg : Cfg) (h : HostFn) (args : List Value)
    (st : St) : Res Value × St :=
  match fuel with
  | 0 => (.noFuel, st)
  | fuel + 1 =>
      match h with
      | .evalFn =>
          match cfg.parse with
          | none =>
              (.exn (.hostErr
                "eval() is not supported without a parser. Pass parse option to Interpreter constructor."),
               st)
          | some p =>
              match args.getD 0 .undef with
              | .str code => evaluateF fuel cfg (p code) st
              | _ => (.exn (.hostErr "eval: non-string code not modelled"), st)
      | .callAdapter f =>
          callFunction fuel cfg (.ref f) (args.drop 1) (args.getD 0 .undef) st
      | .bindAdapter f =>
          match (st.obj f).bind Obj.fn with
          | some fd =>
              let b := st.objs.length
              (.ok (.ref b),
                (st.alloc
                  (boundObjOf b f fd (args.getD 0 .undef) (args.drop 1))).snd)
          | none => (.exn (.hostErr "Value is not a function"), st)
      | .boundCallAdapter b =>
          match (st.obj b).bind Obj.fn with
          | some fd =>
              callFunction fuel cfg (.ref (fd.original.getD b))
                (fd.boundArgs ++ args.drop 1) fd.boundThis st
          | none => (.exn (.hostErr "Value is not a function"), st)
      | .boundBindAdapter b =>
          match (st.obj b).bind Obj.fn with
          | some fd =>
              -- source: func.bind(thisArg, ...boundArgs, ...newBoundArgs),
              -- a host call of the original's current bind property; the new
              -- this argument is dropped
              let orig := fd.original.getD b
              match protoLookup (st.objs.length + 1) st orig "bind" with
              | .host h2 =>
                  hostCall fuel cfg h2
                    (fd.boundThis :: (fd.boundArgs ++ args.drop 1)) st
              | _ => (.exn (.hostErr "bind is not a function"), st)
          | none => (.exn (.hostErr "Value is not a function"), st)
      | .wrapped f => callFunction fuel cfg (.ref f) args .undef st
  termination_by fuel

/-- The Program node case of `evalNode`: seed the result with the last
directive value, then let every body statement overwrite it. -/
def evalProgram (fuel : Nat) (cfg : Cfg) (prog : Program) (scope : Nat)
    (st : St) : Res Value × St :=
  match fuel with
  | 0 => (.noFuel, st)
  | fuel + 1 =>
      let (st1, timedOut) := checkOps cfg st
      if timedOut then (.exn timeoutV, st1) else
      let acc : Value :=
        match prog.directives.getLast? with
        | some d => .str d
        | none => .undef
      evalStmtsAcc fuel cfg prog.body scope st1 acc
  termination_by fuel

/-- Evaluate a pre-parsed program (interpreter.ts `evaluate`): reset the
op counter, run the hoisting pre-pass against the global frame (index 0),
then evaluate the Program node in the global scope. -/
def evaluateF (fuel : Nat) (cfg : Cfg) (prog : Program) (st : St) :
    Res Value × St :=
  match fuel with
  | 0 => (.noFuel, st)
  | fuel + 1 =>
      let st0 := { st with opCount := 0 }
      let st1 := hoistDecls prog.body 0 st0
      evalProgram fuel cfg prog 0 st1
  termination_by fuel

end

/-- The default globals table of the interpreter constructor, restricted
to the entries with a modelled behaviour: the passed-through host
constructors, the undefined binding, the blocked Function constructor,
and the re-interpreting eval.  The remaining default entries (console,
Math, JSON, the Error subclasses, parseInt, ...) are opaque host values
that no studied property touches. -/
def defaultGlobals : List (String × Value) :=
  [("console", .hostOpaque "console"),
   ("Math", .hostOpaque "Math"),
   ("JSON", .hostOpaque "JSON"),
   ("Date", .ctor .date),
   ("RegExp", .ctor .regexp),
   ("Array", .ctor .array),
   ("Object", .ctor .object),
   ("String", .ctor .string),
   ("Number", .ctor .number),
   ("Boolean", .ctor .boolean),
   ("undefined", .undef),
   ("Error", .ctor .error),
   ("Function", .undef),
   ("eval", .host .evalFn)]

/-- Initial interpreter state (the constructor): a single global function
frame holding the defaults overridden by the user-provided globals, an
empty heap, and zeroed counters. -/
def mkInterp (globalEnv : List (String × Value)) : St :=
  { frames := [⟨none,
      globalEnv.foldl (fun acc kv => assocSet acc kv.fst kv.snd) defaultGlobals,
      .function⟩],
    objs := [],
    opCount := 0,
    ghostEvals := 0 }

/-- Configuration with no op ceiling and no parser (the constructor's
defaults). -/
def cfgDefault : Cfg :=
  { maxOps := none, parse := none }

/-- Run a program on a fresh default interpreter, returning the result. -/
def runProg (fuel : Nat) (cfg : Cfg) (prog : Program) : Res Value :=
  (evaluateF fuel cfg prog (mkInterp [])).fst

/-! Concrete programs used by the individual claims. -/

/-- The script ({ prototype: 42 }).prototype — a prototype read on a
non-function script object that carries an own prototype property. -/
def c1CexProg : Program :=
  ⟨[], [.exprStmt (.member (.objLit [("prototype", .numLit 42)])
    (.name "prototype"))]⟩

/-- Two-frame scope chain for the set-fallback claim: a root (global)
frame binding only a, and a child function frame (the originating frame
of the assignment); neither binds zz. -/
def c2St : St :=
  { frames := [⟨none, [("a", .num 0)], .function⟩, ⟨some 0, [], .function⟩],
    objs := [],
    opCount := 0,
    ghostEvals := 0 }

/-- The state after the fallback assignment of zz from frame 1. -/
def c2After : St :=
  (setVarF 10 c2St 1 "zz" (.num 5)).getD c2St

/-- The script function f() {}; var f; f — a function declaration
followed by a var declaration of the same name. -/
def c4Prog : Program :=
  ⟨[], [.funcDecl "f" [] [], .varDecl .var [("f", none)],
    .exprStmt (.ident "f")]⟩

/-- The script function C() { return null; } new C() — a constructor
returning the primitive null. -/
def c5CexProg : Program :=
  ⟨[], [.funcDecl "C" [] [.returnStmt (some .nullLit)],
    .exprStmt (.newE (.ident "C") [])]⟩

/-- The script 42; var x = 1; — an expression statement followed by a
trailing declaration. -/
def c6CexProg : Program :=
  ⟨[], [.exprStmt (.numLit 42), .varDecl .var [("x", some (.numLit 1))]]⟩

/-- Program returned by the modelled parse callback: the script 0. -/
def c7InnerProg : Program :=
  ⟨[], [.exprStmt (.numLit 0)]⟩

/-- Configuration with maxOps 8 and a parse callback (required for the
eval global to re-enter evaluate). -/
def c7Cfg : Cfg :=
  { maxOps := some 8, parse := some (fun _ => c7InnerProg) }

/-- The script eval("0"); 1; 2 — its evaluation performs 12 node
evaluations in total (5 before the nested evaluate, 3 inside it, 4
after), but the counter reset inside eval keeps the counter at 7. -/
def c7CexProg : Program :=
  ⟨[], [.exprStmt (.callE (.ident "eval") [.strLit "0"]),
    .exprStmt (.numLit 1), .exprStmt (.numLit 2)]⟩

/-- The script function f(x) { return x; } var g = f.bind(undefined, 1);
g(2) — a bound function whose bound this is undefined. -/
def c8BindProg : Program :=
  ⟨[], [.funcDecl "f" ["x"] [.returnStmt (some (.ident "x"))],
    .varDecl .var [("g", some (.callE (.member (.ident "f") (.name "bind"))
      [.ident "undefined", .numLit 1]))],
    .exprStmt (.callE (.ident "g") [.numLit 2])]⟩

/-- The script function f(x) { return x; } f(1, 2) — the invocation the
bound-function claim asserts to be equivalent to the one in
`c8BindProg`. -/
def c8DirectProg : Program :=
  ⟨[], [.funcDecl "f" ["x"] [.returnStmt (some (.ident "x"))],
    .exprStmt (.callE (.ident "f") [.numLit 1, .numLit 2])]⟩

/-- Whether a result is a control-flow signal (the source's sentinel
check error.type of break, continue or return). -/
def Res.isCF : Res Value → Bool
  | .brk _ => true
  | .cont _ => true
  | .ret _ => true
  | _ => false

/-! Claim C2: the set fallback on an unresolved identifier. -/

/-- The index of the parentless frame at the end of the parent chain
starting at `idx` (the frame the source's comment calls the global). -/
def chainRootF (fuel : Nat) (st : St) (idx : Nat) : Option Nat :=
  match fuel with
  | 0 => none
  | fuel + 1 =>
      match st.frame idx with
      | none => none
      | some f =>
          match f.parent with
          | some p => chainRootF fuel st p
          | none => some idx

/-- Whether no frame along the parent chain starting at `idx` has a
binding for `name` (and every index along the chain is valid). -/
def chainUnboundF (fuel : Nat) (st : St) (idx : Nat) (name : String) : Bool :=
  match fuel with
  | 0 => false
  | fuel + 1 =>
      match st.frame idx with
      | none => false
      | some f =>
          (assocGet f.vars name).isNone &&
          (match f.parent with
           | some p => chainUnboundF fuel st p name
           | none => true)

/-- Claim C2, counterexample.  On a chain of two frames — the parentless
root (frame 0) and its child function frame (frame 1), neither binding
zz — the fallback assignment of zz issued from frame 1 creates the
binding in frame 0, the root, and leaves the originating frame 1
untouched, contradicting the claim that the binding is created in the
originating frame. -/
theorem c2_set_unbound_counterexample :
    (setVarF 10 c2St 1 "zz" (.num 5)).isSome = true ∧
    assocGet (frameVars c2After 1) "zz" = none ∧
    assocGet (frameVars c2After 0) "zz" = some (.num 5) := by
  refine ⟨by decide, by decide, by decide⟩

/-- Only the targeted frame changes when a binding is written directly
into a frame. -/
theorem frameVars_bindInFrame_ne (st : St) (i j : Nat) (name : String)
    (v : Value) (h : i ≠ j) :
    frameVars (bindInFrame st j name v) i = frameVars st i := by
  simp only [frameVars, bindInFrame, St.setVars, St.frame,
    List.getElem?_set_ne (by omega : j ≠ i)]

/-- Claim C2 (amended): when no frame along the scope chain has a
binding for the assigned name, setVar creates the binding in the
parentless root frame at the end of the chain (the global frame), not
in the originating frame: the walk recurses into parents until the
parentless frame and writes there, and every frame other than the root
— in particular the originating frame, when distinct — is unchanged. -/
theorem c2_set_unbound_creates_in_root :
    ∀ (fuel : Nat) (st : St) (idx rt : Nat) (name : String) (v : Value),
      chainUnboundF fuel st idx name = true →
      chainRootF fuel st idx = some rt →
      (setVarF fuel st idx name v = some (bindInFrame st rt name v) ∧
       ∀ i, i ≠ rt → frameVars (bindInFrame st rt name v) i = frameVars st i) := by
  intro fuel
  induction fuel with
  | zero =>
      intro st idx rt name v hub hrt
      simp [chainUnboundF] at hub
  | succ fuel ih =>
      intro st idx rt name v hub hrt
      rcases hf : st.frame idx with _ | fr
      · rw [chainUnboundF, hf] at hub
        simp at hub
      · rw [chainUnboundF, hf] at hub
        rw [chainRootF, hf] at hrt
        simp only [Bool.and_eq_true] at hub
        obtain ⟨hnone, hrest⟩ := hub
        rcases hp : fr.parent with _ | p
        · simp only [hp, Option.some.injEq] at hrt
          subst hrt
          constructor
          · rw [setVarF, hf]
            simp only [Option.isNone_iff_eq_none] at hnone
            simp only [hnone, Option.isSome_none, Bool.false_eq_true,
              if_false, hp]
            have hf' : st.frames[idx]? = some fr := hf
            simp [bindInFrame, frameVars, St.frame, hf']
          · intro i hi
            exact frameVars_bindInFrame_ne st i idx name v hi
        · simp only [hp] at hrt hrest
          have := ih st p rt name v hrest hrt
          constructor
          · rw [setVarF, hf]
            simp only [Option.isNone_iff_eq_none] at hnone
            simp only [hnone, Option.isSome_none, Bool.false_eq_true,
              if_false, hp]
            exact this.1
          · exact this.2

/-- Witness for `c2_set_unbound_creates_in_root`: the two-frame chain of
the counterexample — the fallback write from frame 1 lands in the root
frame 0 and leaves frame 1 unchanged. -/
theorem c2_set_unbound_creates_in_root_witness :
    setVarF 10 c2St 1 "zz" (.num 5) =
      some (bindInFrame c2St 0 "zz" (.num 5)) ∧
    frameVars (bindInFrame c2St 0 "zz" (.num 5)) 1 = frameVars c2St 1 := by
  have h := c2_set_unbound_creates_in_root 10 c2St 1 0 "zz" (.num 5)
    (by decide) (by decide)
  exact ⟨h.1, h.2 1 (by decide)⟩

/-! Claim C1: the reflective-access filter. -/

/-- Claim C1, counterexample.  The claim states that reading prototype
on any non-function object yields Undefined.  On the script
({ prototype: 42 }).prototype the interpreter returns 42: the
MemberExpression case filters only the keys proto-dunder and
constructor, and a prototype read is an ordinary property lookup. -/
theorem c1_prototype_read_counterexample :
    runProg 100 cfgDefault c1CexProg = .ok (.num 42) ∧
    Res.ok (Value.num 42) ≠ (Res.ok Value.undef : Res Value) := by
  refine ⟨?_, by decide⟩
  simp [c1CexProg, runProg, evaluateF, evalProgram, evalStmtsAcc, evalStmt, evalExpr,
    evalPropKey, evalArgs, evalObjProps, evalVarDecls, evalWhile, callFunction,
    hostCall, runFinalizer, mkInterp, cfgDefault, checkOps,
    defaultGlobals, hostGet, hostSet, protoLookup, assocGet, assocSet,
    emptyObj, ctorIsBuiltin, builtinCtors, St.alloc, St.allocFrame, St.obj,
    St.setObj, St.frame, St.setVars, frameVars, bindInFrame, getVarF, setVarF,
    jsTruthy, nativeTypeof, propKeyOf, hoistDecls, hoistVarNames,
    createFunction, bindParams, argsObj, declareVarF, declareLet, varTargetF,
    wrapArg, timeoutV]

/-! Claim C4: the hoisting pre-pass and var re-declaration. -/

/-- Claim C4, evaluation at the failing input.  ES5 declaration binding
(and the spec) require a var declaration to bind Undefined only when the
name is not already bound, so in function f() {}; var f; f the name f
must still denote the hoisted function.  The pre-pass of the code binds
var names unconditionally, so the later var f overwrites the hoisted
function with Undefined: the program evaluates to Undefined, and after
the pre-pass alone the global binding of f is Undefined.  With the
opposite statement order (var f; function f() {}) the function survives,
confirming that the overwrite is order-dependent. -/
theorem c4_hoist_var_overwrites_function :
    runProg 100 cfgDefault c4Prog = .ok .undef ∧
    assocGet (frameVars (hoistDecls c4Prog.body 0 (mkInterp [])) 0) "f" =
      some .undef ∧
    assocGet
      (frameVars
        (hoistDecls [.varDecl .var [("f", none)], .funcDecl "f" [] []] 0
          (mkInterp [])) 0) "f" = some (.ref 1) := by
  refine ⟨?_, by decide, by decide⟩
  simp [c4Prog, runProg, evaluateF, evalProgram, evalStmtsAcc, evalStmt, evalExpr,
    evalPropKey, evalArgs, evalObjProps, evalVarDecls, evalWhile, callFunction,
    hostCall, runFinalizer, mkInterp, cfgDefault, checkOps,
    defaultGlobals, hostGet, hostSet, protoLookup, assocGet, assocSet,
    emptyObj, ctorIsBuiltin, builtinCtors, St.alloc, St.allocFrame, St.obj,
    St.setObj, St.frame, St.setVars, frameVars, bindInFrame, getVarF, setVarF,
    jsTruthy, nativeTypeof, propKeyOf, hoistDecls, hoistVarNames,
    createFunction, bindParams, argsObj, declareVarF, declareLet, varTargetF,
    wrapArg, timeoutV]

/-! Claim C5: NewExpression result classification. -/

/-- Claim C5, counterexample.  The claim states that the fresh instance
is returned whenever the constructor returns a primitive, including
null.  For function C() { return null; } new C() the interpreter
returns null: the check result !== undefined && typeof result ===
"object" classifies null as an object. -/
theorem c5_new_null_counterexample :
    runProg 100 cfgDefault c5CexProg = .ok .null ∧
    nativeTypeof .null = "object" ∧
    Res.ok Value.null ≠ (Res.ok (Value.ref 2) : Res Value) := by
  refine ⟨?_, by decide, by decide⟩
  simp [c5CexProg, runProg, evaluateF, evalProgram, evalStmtsAcc, evalStmt, evalExpr,
    evalPropKey, evalArgs, evalObjProps, evalVarDecls, evalWhile, callFunction,
    hostCall, runFinalizer, mkInterp, cfgDefault, checkOps,
    defaultGlobals, hostGet, hostSet, protoLookup, assocGet, assocSet,
    emptyObj, ctorIsBuiltin, builtinCtors, St.alloc, St.allocFrame, St.obj,
    St.setObj, St.frame, St.setVars, frameVars, bindInFrame, getVarF, setVarF,
    jsTruthy, nativeTypeof, propKeyOf, hoistDecls, hoistVarNames,
    createFunction, bindParams, argsObj, declareVarF, declareLet, varTargetF,
    wrapArg, timeoutV]

/-! Claim C6: the value of evaluate. -/

/-- Claim C6, counterexample.  The claim states that trailing
non-expression statements do not replace the last expression-statement's
value.  On 42; var x = 1; the interpreter returns Undefined: the Program
loop overwrites the running result with every statement's value, and a
VariableDeclaration evaluates to Undefined. -/
theorem c6_trailing_decl_counterexample :
    runProg 100 cfgDefault c6CexProg = .ok .undef ∧
    Res.ok Value.undef ≠ (Res.ok (Value.num 42) : Res Value) := by
  refine ⟨?_, by decide⟩
  simp [c6CexProg, runProg, evaluateF, evalProgram, evalStmtsAcc, evalStmt, evalExpr,
    evalPropKey, evalArgs, evalObjProps, evalVarDecls, evalWhile, callFunction,
    hostCall, runFinalizer, mkInterp, cfgDefault, checkOps,
    defaultGlobals, hostGet, hostSet, protoLookup, assocGet, assocSet,
    emptyObj, ctorIsBuiltin, builtinCtors, St.alloc, St.allocFrame, St.obj,
    St.setObj, St.frame, St.setVars, frameVars, bindInFrame, getVarF, setVarF,
    jsTruthy, nativeTypeof, propKeyOf, hoistDecls, hoistVarNames,
    createFunction, bindParams, argsObj, declareVarF, declareLet, varTargetF,
    wrapArg, timeoutV]

/-- Splitting lemma for the statement-list fold: when a prefix completes
normally, evaluation of the concatenation continues with the suffix from
the prefix's final state and accumulator (each list element costs one
fuel level). -/
theorem evalStmtsAcc_append (cfg : Cfg) (l2 : List Stmt) :
    ∀ (l1 : List Stmt) (fuel : Nat) (scope : Nat) (st : St) (acc w : Value)
      (st' : St),
      evalStmtsAcc fuel cfg l1 scope st acc = (.ok w, st') →
      evalStmtsAcc fuel cfg (l1 ++ l2) scope st acc =
        evalStmtsAcc (fuel - l1.length) cfg l2 scope st' w := by
  intro l1
  induction l1 with
  | nil =>
      intro fuel scope st acc w st' h
      match fuel with
      | 0 => simp [evalStmtsAcc] at h
      | fuel + 1 =>
          rw [evalStmtsAcc] at h
          simp only [Prod.mk.injEq, Res.ok.injEq] at h
          obtain ⟨hw, hst⟩ := h
          subst hw
          subst hst
          simp
  | cons s rest ih =>
      intro fuel scope st acc w st' h
      match fuel with
      | 0 => simp [evalStmtsAcc] at h
      | fuel + 1 =>
          rw [evalStmtsAcc] at h
          rcases hr : evalStmt fuel cfg s scope st with ⟨r, st1⟩
          rw [hr] at h
          match r, h with
          | .ok v, h =>
              have := ih fuel scope st1 v w st' h
              simp only [List.cons_append, evalStmtsAcc, hr, this,
                List.length_cons]
              congr 1
              omega
          | .exn e, h => simp at h
          | .brk l, h => simp at h
          | .cont l, h => simp at h
          | .ret vv, h => simp at h
          | .noFuel, h => simp at h

/-- Claim C6 (amended): evaluate returns the value produced by the LAST
statement of the program body, whatever its kind — declarations and
other non-expression statements produce Undefined and overwrite an
earlier expression-statement's value — and the top-level directive value
is returned only when the body is empty. -/
theorem c6_program_result (cfg : Cfg) (g : Nat) :
    (∀ (ds : List String) (st : St),
      (checkOps cfg { st with opCount := 0 }).snd = false →
      evaluateF (g + 3) cfg ⟨ds, []⟩ st =
        (.ok (match ds.getLast? with | some d => .str d | none => .undef),
         (checkOps cfg { st with opCount := 0 }).fst)) ∧
    (∀ (ds : List String) (pre : List Stmt) (slast : Stmt) (st : St)
        (w v : Value) (stMid stLast : St),
      pre.length + 2 ≤ g →
      (checkOps cfg
        (hoistDecls (pre ++ [slast]) 0 { st with opCount := 0 })).snd =
        false →
      evalStmtsAcc g cfg pre 0
          (checkOps cfg
            (hoistDecls (pre ++ [slast]) 0 { st with opCount := 0 })).fst
          (match ds.getLast? with | some d => .str d | none => .undef) =
        (.ok w, stMid) →
      evalStmt (g - pre.length - 1) cfg slast 0 stMid = (.ok v, stLast) →
      evaluateF (g + 2) cfg ⟨ds, pre ++ [slast]⟩ st = (.ok v, stLast)) := by
  constructor
  · intro ds st hop
    rcases hck : checkOps cfg { st with opCount := 0 } with ⟨st1, t⟩
    rw [hck] at hop
    simp at hop
    subst hop
    simp only [evaluateF, evalProgram, hoistDecls, hck, Bool.false_eq_true,
      if_false, evalStmtsAcc]
  · intro ds pre slast st w v stMid stLast hg hop hpre hlast
    rcases hck : checkOps cfg
      (hoistDecls (pre ++ [slast]) 0 { st with opCount := 0 }) with ⟨st1, t⟩
    rw [hck] at hop hpre
    simp at hop
    subst hop
    have happ := evalStmtsAcc_append cfg [slast] pre g 0 st1
      (match ds.getLast? with | some d => .str d | none => .undef) w stMid
      hpre
    obtain ⟨k, hk⟩ : ∃ k, g - pre.length = k + 2 :=
      ⟨g - pre.length - 2, by omega⟩
    have hk1 : g - pre.length - 1 = k + 1 := by omega
    rw [hk] at happ
    rw [hk1] at hlast
    simp only [evaluateF, evalProgram, hck, Bool.false_eq_true, if_false,
      happ, evalStmtsAcc, hlast]

/-- Intermediate state of the C6 witness, after the hoisting pre-pass
(x bound to Undefined), the Program node and the expression statement
42 (three counted node evaluations). -/
def c6WitStMid : St :=
  { frames := [⟨none, assocSet defaultGlobals "x" .undef, .function⟩],
    objs := [], opCount := 3, ghostEvals := 3 }

/-- Final state of the C6 witness, after the trailing declaration
var x = 1 (two more counted node evaluations). -/
def c6WitStLast : St :=
  { frames := [⟨none, assocSet defaultGlobals "x" (.num 1), .function⟩],
    objs := [], opCount := 5, ghostEvals := 5 }

/-- Witness for `c6_program_result`: the program "d"; 42; var x = 1; —
the trailing declaration's Undefined is the program value — and the
empty program with the directive "use strict". -/
theorem c6_program_result_witness :
    evaluateF 9 cfgDefault ⟨["use strict"], []⟩ (mkInterp []) =
      (.ok (.str "use strict"),
        (checkOps cfgDefault { mkInterp [] with opCount := 0 }).fst) ∧
    evaluateF 8 cfgDefault
        ⟨["d"], [.exprStmt (.numLit 42),
          .varDecl .var [("x", some (.numLit 1))]]⟩ (mkInterp []) =
      (.ok .undef, c6WitStLast) := by
  have h := c6_program_result cfgDefault 6
  constructor
  · have h1 := h.1 ["use strict"] (mkInterp []) rfl
    simpa using h1
  · have h2 := h.2 ["d"] [.exprStmt (.numLit 42)]
      (.varDecl .var [("x", some (.numLit 1))]) (mkInterp [])
      (.num 42) .undef c6WitStMid c6WitStLast
      (by decide) rfl
      (by simp [evalStmtsAcc, evalStmt, evalExpr, checkOps, hoistDecls,
        hoistVarNames, bindInFrame, frameVars, St.frame, St.setVars,
        assocSet, mkInterp, cfgDefault, defaultGlobals, c6WitStMid])
      (by simp [evalStmt, evalVarDecls, evalExpr, checkOps, declareVarF,
        varTargetF, bindInFrame, frameVars, St.frame, St.setVars, assocSet,
        mkInterp, cfgDefault, defaultGlobals, c6WitStMid, c6WitStLast])
    simpa using h2

/-! Claim C7: the op-count ceiling. -/

/-- The scope-store and heap helpers never touch the op counter. -/
theorem opCount_setVars (st : St) (i : Nat) (l : List (String × Value)) :
    (st.setVars i l).opCount = st.opCount := rfl

/-- Heap allocation preserves the op counter. -/
theorem opCount_alloc (st : St) (o : Obj) :
    (st.alloc o).snd.opCount = st.opCount := rfl

/-- Frame allocation preserves the op counter. -/
theorem opCount_allocFrame (st : St) (p : Option Nat) (k : SKind) :
    (st.allocFrame p k).snd.opCount = st.opCount := rfl

/-- Direct frame writes preserve the op counter. -/
theorem opCount_bindInFrame (st : St) (i : Nat) (n : String) (v : Value) :
    (bindInFrame st i n v).opCount = st.opCount := rfl

/-- Heap updates preserve the op counter. -/
theorem opCount_setObj (st : St) (r : Nat) (o : Obj) :
    (st.setObj r o).opCount = st.opCount := rfl

/-- Function materialisation preserves the op counter. -/
theorem opCount_createFunction (st : St) (n : Option String)
    (ps : List String) (b : List Stmt) (c : Nat) :
    (createFunction st n ps b c).snd.opCount = st.opCount := rfl

/-- Hoisting a var declarator list preserves the op counter. -/
theorem opCount_hoistVarNames (decls : List (String × Option Expr)) :
    ∀ (scope : Nat) (st : St),
      (hoistVarNames decls scope st).opCount = st.opCount := by
  induction decls with
  | nil => intro scope st; rfl
  | cons d rest ih =>
      intro scope st
      rw [hoistVarNames, ih, opCount_bindInFrame]

/-- The hoisting pre-pass preserves the op counter. -/
theorem opCount_hoistDecls (stmts : List Stmt) :
    ∀ (scope : Nat) (st : St),
      (hoistDecls stmts scope st).opCount = st.opCount := by
  induction stmts with
  | nil => intro scope st; rfl
  | cons s rest ih =>
      intro scope st
      cases s
      case varDecl kind decls =>
        cases kind <;>
          simp [hoistDecls, ih, opCount_hoistVarNames]
      all_goals
        simp [hoistDecls, ih, opCount_bindInFrame, opCount_createFunction]

/-- Parameter binding preserves the op counter. -/
theorem opCount_bindParams (params : List String) :
    ∀ (args : List Value) (fs : Nat) (st : St),
      (bindParams params args fs st).opCount = st.opCount := by
  induction params with
  | nil => intro args fs st; rfl
  | cons p ps ih =>
      intro args fs st
      cases args with
      | nil => rw [bindParams, ih, opCount_bindInFrame]
      | cons a rest => rw [bindParams, ih, opCount_bindInFrame]

/-- Variable assignment along the chain preserves the op counter. -/
theorem opCount_setVarF (fuel : Nat) :
    ∀ (st : St) (idx : Nat) (name : String) (v : Value) (st' : St),
      setVarF fuel st idx name v = some st' → st'.opCount = st.opCount := by
  induction fuel with
  | zero => intro st idx name v st' h; simp [setVarF] at h
  | succ fuel ih =>
      intro st idx name v st' h
      rw [setVarF] at h
      rcases hf : st.frame idx with _ | fr
      · rw [hf] at h
        simp only [Option.some.injEq] at h
        subst h; rfl
      · rw [hf] at h
        by_cases hin : (assocGet fr.vars name).isSome
        · simp only [hin, if_true] at h
          simp only [Option.some.injEq] at h
          subst h; rfl
        · simp only [hin, Bool.false_eq_true, if_false] at h
          rcases hp : fr.parent with _ | p
          · rw [hp] at h
            simp only [Option.some.injEq] at h
            subst h; rfl
          · rw [hp] at h
            exact ih st p name v st' h

/-- var-kinded declaration preserves the op counter. -/
theorem opCount_declareVarF (fuel : Nat) (st : St) (idx : Nat)
    (name : String) (v : Value) :
    (declareVarF fuel st idx name v).opCount = st.opCount := rfl

/-- let/const declaration preserves the op counter. -/
theorem opCount_declareLet (st : St) (idx : Nat) (name : String)
    (v : Value) :
    (declareLet st idx name v).opCount = st.opCount := rfl

/-- Ambient property writes preserve the op counter. -/
theorem opCount_hostSet (st : St) (v : Value) (p : String) (w : Value) :
    (hostSet st v p w).snd.opCount = st.opCount := by
  cases v with
  | ref r =>
      rw [hostSet]
      rcases st.obj r with _ | o
      · rfl
      · by_cases hp : p = "__proto__"
        · simp only [hp, if_true]
          cases w <;> rfl
        · simp only [hp, Bool.false_eq_true, if_false]; rfl
  | _ => rfl

/-- A node evaluation entered with the counter already above the ceiling
fails immediately with the timeout error, leaving only the counter bump
(expression form). -/
theorem evalExpr_saturate (m fuel : Nat) (cfg : Cfg) (e : Expr)
    (scope : Nat) (st : St) (hm : cfg.maxOps = some m)
    (h : m < st.opCount) :
    evalExpr (fuel + 1) cfg e scope st =
      (.exn timeoutV, (checkOps cfg st).fst) := by
  have hlt : m < st.opCount + 1 := by omega
  simp only [evalExpr, checkOps, hm, gt_iff_lt, hlt, decide_True, if_true]

/-- A node evaluation entered with the counter already above the ceiling
fails immediately with the timeout error (statement form). -/
theorem evalStmt_saturate (m fuel : Nat) (cfg : Cfg) (s : Stmt)
    (scope : Nat) (st : St) (hm : cfg.maxOps = some m)
    (h : m < st.opCount) :
    evalStmt (fuel + 1) cfg s scope st =
      (.exn timeoutV, (checkOps cfg st).fst) := by
  have hlt : m < st.opCount + 1 := by omega
  simp only [evalStmt, checkOps, hm, gt_iff_lt, hlt, decide_True, if_true]

/-- With the counter above the ceiling and a pending timeout, the
finalizer runner yields the timeout error (or runs out of fuel). -/
theorem runFinalizer_saturate (m fuel : Nat) (cfg : Cfg)
    (fin : Option Stmt) (scope : Nat) (st : St)
    (hm : cfg.maxOps = some m) (h : m < st.opCount) :
    (runFinalizer fuel cfg fin scope st (.exn timeoutV)).fst = .noFuel ∨
    ((runFinalizer fuel cfg fin scope st (.exn timeoutV)).fst = .exn timeoutV ∧
      m < (runFinalizer fuel cfg fin scope st (.exn timeoutV)).snd.opCount) := by
  match fuel with
  | 0 => left; simp [runFinalizer]
  | fuel + 1 =>
      cases fin with
      | none =>
          right
          constructor
          · simp [runFinalizer]
          · simpa [runFinalizer] using h
      | some f =>
          match fuel with
          | 0 =>
              left
              simp [runFinalizer, evalStmt]
          | fuel + 1 =>
              have hs := evalStmt_saturate m fuel cfg f scope st hm h
              right
              constructor
              · simp [runFinalizer, hs]
              · simp only [runFinalizer, hs]
                simp [checkOps]
                omega

/-- The per-call ceiling invariant: an evaluator call entered with the
counter at or below the ceiling either runs out of fuel, or ends with
the counter at or below the ceiling, or fails with the timeout error
having driven the counter above the ceiling.  In particular no other
outcome can leave the counter above the ceiling. -/
def Done (m : Nat) (out : Res α × St) : Prop :=
  out.fst = .noFuel ∨ out.snd.opCount ≤ m ∨
    (out.fst = .exn timeoutV ∧ m < out.snd.opCount)

/-- A final state at or below the ceiling satisfies the invariant
whatever the result. -/
theorem Done_state {α : Type} (m : Nat) (r : Res α) (st : St)
    (h : st.opCount ≤ m) : Done m (r, st) :=
  Or.inr (Or.inl h)

/-- Propagating a non-`ok`, non-timeout, non-fuel result keeps the final
state at or below the ceiling. -/
theorem Done_not_tn {α : Type} {m : Nat} {r : Res α} {st : St}
    (d : Done m (r, st)) (h1 : r ≠ .noFuel) (h2 : r ≠ .exn timeoutV) :
    st.opCount ≤ m := by
  rcases d with h | h | ⟨h, h'⟩
  · exact absurd h h1
  · exact h
  · exact absurd h h2

/-- The invariant survives the payload-type coercion of propagated
abrupt results. -/
theorem Done_castErr {α β : Type} {m : Nat} {r : Res α} {st : St}
    (d : Done m (r, st)) : Done m ((Res.castErr r : Res β), st) := by
  rcases d with h | h | ⟨h, h'⟩
  · have hr : r = .noFuel := h
    subst hr
    left; rfl
  · exact Or.inr (Or.inl h)
  · have hr : r = .exn timeoutV := h
    subst hr
    right; right; exact ⟨rfl, h'⟩

/-- An exception outcome under the invariant: either the final state is
at or below the ceiling, or the exception is the timeout error and the
counter has passed the ceiling. -/
theorem Done_exn {m : Nat} {e : Value} {st : St}
    (d : Done m ((Res.exn e : Res Value), st)) :
    st.opCount ≤ m ∨ (e = timeoutV ∧ m < st.opCount) := by
  rcases d with h | h | ⟨h, h'⟩
  · simp at h
  · exact Or.inl h
  · simp only [Res.exn.injEq] at h
    exact Or.inr ⟨h, h'⟩

/-- The member-read filter does not touch the state, so it keeps any
final state at or below the ceiling. -/
theorem Done_memberRead (m : Nat) (key : String) (ov : Value) (st3 : St)
    (h3 : st3.opCount ≤ m) :
    Done m (if key = "__proto__" then ((Res.ok Value.undef : Res Value), st3)
      else if key = "constructor" ∧ ov ≠ Value.null ∧ ov ≠ Value.undef ∧
          ctorIsBuiltin st3 ov then (.ok .undef, st3)
      else (hostGet st3 ov key, st3)) := by
  split
  · exact Done_state m _ _ h3
  · split
    · exact Done_state m _ _ h3
    · exact Done_state m _ _ h3

/-- The return-signal conversion at the tail of `callFunction`
preserves the invariant of the body evaluation. -/
theorem Done_tail (m : Nat) (X : Res Value × St) (d : Done m X) :
    Done m (match X.1 with
      | .ok _ => ((.ok .undef : Res Value), X.2)
      | .ret v => (.ok v, X.2)
      | r3 => (r3, X.2)) := by
  rcases X with ⟨r, st8⟩
  cases r with
  | ok v => exact Done_state m _ _ (Done_not_tn d (by simp) (by simp))
  | ret v => exact Done_state m _ _ (Done_not_tn d (by simp) (by simp))
  | exn v => exact d
  | brk l => exact d
  | cont l => exact d
  | noFuel => exact d

/-- The ceiling invariant, proved for all evaluator entry points
simultaneously by induction on fuel, for a configuration with a ceiling
and no parse callback. -/
theorem opCeiling_all (m : Nat) (cfg : Cfg) (hm : cfg.maxOps = some m)
    (hp : cfg.parse = none) :
    ∀ fuel : Nat,
      (∀ e scope st, St.opCount st ≤ m → Done m (evalExpr fuel cfg e scope st)) ∧
      (∀ p scope st, St.opCount st ≤ m → Done m (evalPropKey fuel cfg p scope st)) ∧
      (∀ es scope st, St.opCount st ≤ m → Done m (evalArgs fuel cfg es scope st)) ∧
      (∀ ps r scope st, St.opCount st ≤ m → Done m (evalObjProps fuel cfg ps r scope st)) ∧
      (∀ s scope st, St.opCount st ≤ m → Done m (evalStmt fuel cfg s scope st)) ∧
      (∀ fin scope st pending, St.opCount st ≤ m → Done m (runFinalizer fuel cfg fin scope st pending)) ∧
      (∀ kind decls scope st, St.opCount st ≤ m → Done m (evalVarDecls fuel cfg kind decls scope st)) ∧
      (∀ stmts scope st acc, St.opCount st ≤ m → Done m (evalStmtsAcc fuel cfg stmts scope st acc)) ∧
      (∀ test body scope st acc, St.opCount st ≤ m → Done m (evalWhile fuel cfg test body scope st acc)) ∧
      (∀ fv args tc st, St.opCount st ≤ m → Done m (callFunction fuel cfg fv args tc st)) ∧
      (∀ hf args st, St.opCount st ≤ m → Done m (hostCall fuel cfg hf args st)) ∧
      (∀ prog scope st, St.opCount st ≤ m → Done m (evalProgram fuel cfg prog scope st)) := by
  intro fuel
  induction fuel with
  | zero =>
      refine ⟨?_, ?_, ?_, ?_, ?_, ?_, ?_, ?_, ?_, ?_, ?_, ?_⟩ <;>
        · intros
          left
          simp [evalExpr, evalPropKey, evalArgs, evalObjProps, evalStmt,
            runFinalizer, evalVarDecls, evalStmtsAcc, evalWhile,
            callFunction, hostCall, evalProgram]
  | succ fuel ih =>
      obtain ⟨ihE, ihPK, ihA, ihOP, ihS, ihF, ihVD, ihSA, ihW, ihCF, ihHC, ihPR⟩ := ih
      refine ⟨?_, ?_, ?_, ?_, ?_, ?_, ?_, ?_, ?_, ?_, ?_, ?_⟩
      · -- evalExpr
        intro e scope st hle
        by_cases ht : m < st.opCount + 1
        · right; right
          refine ⟨?_, ?_⟩ <;>
            simp [evalExpr, checkOps, hm, gt_iff_lt, ht, decide_True]
        · have hd : (decide (st.opCount + 1 > m)) = false := by
            simp [gt_iff_lt, ht]
          simp only [evalExpr, checkOps, hm, hd, Bool.false_eq_true, if_false]
          have hble : ({ st with opCount := st.opCount + 1, ghostEvals := st.ghostEvals + 1 } : St).opCount ≤ m := by
            show st.opCount + 1 ≤ m
            omega
          generalize hB : ({ st with opCount := st.opCount + 1, ghostEvals := st.ghostEvals + 1 } : St) = B
          rw [hB] at hble
          clear hB hd ht hle
          cases e with
          | numLit n => exact Done_state m _ _ hble
          | strLit s => exact Done_state m _ _ hble
          | boolLit b => exact Done_state m _ _ hble
          | nullLit => exact Done_state m _ _ hble
          | ident name =>
              rcases hg : getVarF fuel B scope name with _ | r <;>
                simp only [hg] <;> exact Done_state m _ _ hble
          | thisE =>
              rcases hg : getVarF fuel B scope "this" with _ | r <;>
                simp only [hg] <;> exact Done_state m _ _ hble
          | assignId name rhs =>
              rcases hr : evalExpr fuel cfg rhs scope B with ⟨rv, st2⟩
              have d := ihE rhs scope B hble
              rw [hr] at d
              simp only [hr]
              cases rv with
              | ok v =>
                  have h2 : st2.opCount ≤ m := Done_not_tn d (by simp) (by simp)
                  rcases hs : setVarF fuel st2 scope name v with _ | st3
                  · simp only [hs]
                    exact Done_state m _ _ h2
                  · simp only [hs]
                    have h3 : st3.opCount = st2.opCount :=
                      opCount_setVarF fuel st2 scope name v st3 hs
                    exact Done_state m _ _ (by rw [h3]; exact h2)
              | exn v => exact d
              | brk l => exact d
              | cont l => exact d
              | ret v => exact d
              | noFuel => exact d
          | assignMember objE prop rhs =>
              rcases hr : evalExpr fuel cfg rhs scope B with ⟨rv, st2⟩
              have d := ihE rhs scope B hble
              rw [hr] at d
              simp only [hr]
              cases rv with
              | ok v =>
                  have h2 : st2.opCount ≤ m := Done_not_tn d (by simp) (by simp)
                  rcases ho : evalExpr fuel cfg objE scope st2 with ⟨ro, st3⟩
                  have d2 := ihE objE scope st2 h2
                  rw [ho] at d2
                  simp only [ho]
                  cases ro with
                  | ok ov =>
                      have h3 : st3.opCount ≤ m := Done_not_tn d2 (by simp) (by simp)
                      rcases hk : evalPropKey fuel cfg prop scope st3 with ⟨rk, st4⟩
                      have d3 := ihPK prop scope st3 h3
                      rw [hk] at d3
                      simp only [hk]
                      cases rk with
                      | ok key =>
                          have h4 : st4.opCount ≤ m := Done_not_tn d3 (by simp) (by simp)
                          rcases hhs : hostSet st4 ov key v with ⟨rs, st5⟩
                          have h5 : st5.opCount = st4.opCount := by
                            have h' := opCount_hostSet st4 ov key v
                            rw [hhs] at h'
                            exact h'
                          simp only [hhs]
                          cases rs <;> exact Done_state m _ _ (by rw [h5]; exact h4)
                      | exn v2 => exact Done_castErr d3
                      | brk l => exact Done_castErr d3
                      | cont l => exact Done_castErr d3
                      | ret v2 => exact Done_castErr d3
                      | noFuel => exact Done_castErr d3
                  | exn v2 => exact d2
                  | brk l => exact d2
                  | cont l => exact d2
                  | ret v2 => exact d2
                  | noFuel => exact d2
              | exn v => exact d
              | brk l => exact d
              | cont l => exact d
              | ret v => exact d
              | noFuel => exact d
          | member objE prop =>
              rcases ho : evalExpr fuel cfg objE scope B with ⟨ro, st2⟩
              have d := ihE objE scope B hble
              rw [ho] at d
              simp only [ho]
              cases ro with
              | ok ov =>
                  have h2 : st2.opCount ≤ m := Done_not_tn d (by simp) (by simp)
                  rcases hk : evalPropKey fuel cfg prop scope st2 with ⟨rk, st3⟩
                  have d2 := ihPK prop scope st2 h2
                  rw [hk] at d2
                  simp only [hk]
                  cases rk with
                  | ok key =>
                      have h3 : st3.opCount ≤ m := Done_not_tn d2 (by simp) (by simp)
                      exact Done_memberRead m key ov st3 h3
                  | exn v2 => exact Done_castErr d2
                  | brk l => exact Done_castErr d2
                  | cont l => exact Done_castErr d2
                  | ret v2 => exact Done_castErr d2
                  | noFuel => exact Done_castErr d2
              | exn v2 => exact d
              | brk l => exact d
              | cont l => exact d
              | ret v2 => exact d
              | noFuel => exact d
          | callE callee args =>
              rcases hc : evalExpr fuel cfg callee scope B with ⟨rc, st2⟩
              have d := ihE callee scope B hble
              rw [hc] at d
              simp only [hc]
              cases rc with
              | ok cv =>
                  have h2 : st2.opCount ≤ m := Done_not_tn d (by simp) (by simp)
                  rcases ha : evalArgs fuel cfg args scope st2 with ⟨ra, st3⟩
                  have d2 := ihA args scope st2 h2
                  rw [ha] at d2
                  simp only [ha]
                  cases ra with
                  | ok avs =>
                      have h3 : st3.opCount ≤ m := Done_not_tn d2 (by simp) (by simp)
                      cases callee <;>
                        first
                        | (rename_i objE pk
                           rcases htc : evalExpr fuel cfg objE scope st3 with ⟨rt, st4⟩
                           have d3 := ihE objE scope st3 h3
                           rw [htc] at d3
                           simp only [htc]
                           rcases rt with thisCtx | v2 | l2 | l2 | v2 | _
                           · have h4 : st4.opCount ≤ m := Done_not_tn d3 (by simp) (by simp)
                             rcases cv with _ | _ | b1 | n1 | s1 | rr | c1 | hf1 | msg | o1
                             · exact ihCF _ avs thisCtx st4 h4
                             · exact ihCF _ avs thisCtx st4 h4
                             · exact ihCF _ avs thisCtx st4 h4
                             · exact ihCF _ avs thisCtx st4 h4
                             · exact ihCF _ avs thisCtx st4 h4
                             · exact ihCF _ avs thisCtx st4 h4
                             · exact Done_state m _ _ h4
                             · exact ihHC hf1 (avs.map (wrapArg st4)) st4 h4
                             · exact ihCF _ avs thisCtx st4 h4
                             · exact ihCF _ avs thisCtx st4 h4
                           all_goals exact d3)
                        | (rcases cv with _ | _ | b1 | n1 | s1 | rr | c1 | hf1 | msg | o1
                           · exact ihCF _ avs Value.undef st3 h3
                           · exact ihCF _ avs Value.undef st3 h3
                           · exact ihCF _ avs Value.undef st3 h3
                           · exact ihCF _ avs Value.undef st3 h3
                           · exact ihCF _ avs Value.undef st3 h3
                           · exact ihCF _ avs Value.undef st3 h3
                           · exact Done_state m _ _ h3
                           · exact ihHC hf1 (avs.map (wrapArg st3)) st3 h3
                           · exact ihCF _ avs Value.undef st3 h3
                           · exact ihCF _ avs Value.undef st3 h3)
                  | exn v2 => exact Done_castErr d2
                  | brk l => exact Done_castErr d2
                  | cont l => exact Done_castErr d2
                  | ret v2 => exact Done_castErr d2
                  | noFuel => exact Done_castErr d2
              | exn v2 => exact d
              | brk l => exact d
              | cont l => exact d
              | ret v2 => exact d
              | noFuel => exact d
          | newE callee args =>
              rcases hc : evalExpr fuel cfg callee scope B with ⟨rc, st2⟩
              have d := ihE callee scope B hble
              rw [hc] at d
              simp only [hc]
              cases rc with
              | ok cv =>
                  have h2 : st2.opCount ≤ m := Done_not_tn d (by simp) (by simp)
                  rcases ha : evalArgs fuel cfg args scope st2 with ⟨ra, st3⟩
                  have d2 := ihA args scope st2 h2
                  rw [ha] at d2
                  simp only [ha]
                  cases ra with
                  | ok avs =>
                      have h3 : st3.opCount ≤ m := Done_not_tn d2 (by simp) (by simp)
                      rcases cv with _ | _ | b1 | n1 | s1 | r | c1 | hf1 | msg | o1
                      · exact Done_state m _ _ h3
                      · exact Done_state m _ _ h3
                      · exact Done_state m _ _ h3
                      · exact Done_state m _ _ h3
                      · exact Done_state m _ _ h3
                      · rcases hfn : (st3.obj r).bind Obj.fn with _ | fd0
                        · simp only [hfn]
                          exact Done_state m _ _ h3
                        · simp only [hfn]
                          split
                          · rename_i inst st4 heq
                            have h4 : st4.opCount ≤ m := by
                              have halloc : ∀ o : Obj, st3.alloc o = (inst, st4) →
                                  st4.opCount ≤ m := by
                                intro o hq
                                have h' := opCount_alloc st3 o
                                rw [hq] at h'
                                have h'' : st4.opCount = st3.opCount := h'
                                rw [h'']
                                exact h3
                              split at heq <;>
                                (try split at heq) <;>
                                first
                                | exact halloc _ heq
                                | (simp only [Res.ok.injEq] at heq
                                   exact halloc _ heq)
                                | simp at heq
                            rcases hcf : callFunction fuel cfg (.ref r) avs (.ref inst) st4 with ⟨rr, st5⟩
                            have d3 := ihCF (.ref r) avs (.ref inst) st4 h4
                            rw [hcf] at d3
                            simp only [hcf]
                            cases rr with
                            | ok res => exact Done_state m _ _ (Done_not_tn d3 (by simp) (by simp))
                            | exn v2 => exact d3
                            | brk l => exact d3
                            | cont l => exact d3
                            | ret v2 => exact d3
                            | noFuel => exact d3
                          · exact Done_state m _ _ h3
                      · exact Done_state m _ _ h3
                      · exact Done_state m _ _ h3
                      · exact Done_state m _ _ h3
                      · exact Done_state m _ _ h3
                  | exn v2 => exact Done_castErr d2
                  | brk l => exact Done_castErr d2
                  | cont l => exact Done_castErr d2
                  | ret v2 => exact Done_castErr d2
                  | noFuel => exact Done_castErr d2
              | exn v2 => exact d
              | brk l => exact d
              | cont l => exact d
              | ret v2 => exact d
              | noFuel => exact d
          | objLit props =>
              rcases hal : B.alloc (emptyObj none) with ⟨r, st2⟩
              have h2 : st2.opCount = B.opCount := by
                have h' := opCount_alloc B (emptyObj none)
                rw [hal] at h'
                exact h'
              simp only [hal]
              rcases hop : evalObjProps fuel cfg props r scope st2 with ⟨ru, st3⟩
              have d := ihOP props r scope st2 (by rw [h2]; exact hble)
              rw [hop] at d
              simp only [hop]
              cases ru with
              | ok u => exact Done_state m _ _ (Done_not_tn d (by simp) (by simp))
              | exn v2 => exact Done_castErr d
              | brk l => exact Done_castErr d
              | cont l => exact Done_castErr d
              | ret v2 => exact Done_castErr d
              | noFuel => exact Done_castErr d
          | funcExpr name params body =>
              rcases hcf : createFunction B name params body scope with ⟨r, st2⟩
              have h2 : st2.opCount = B.opCount := by
                have h' := opCount_createFunction B name params body scope
                rw [hcf] at h'
                exact h'
              simp only [hcf]
              exact Done_state m _ _ (by rw [h2]; exact hble)
      · -- evalPropKey
        intro p scope st hle
        cases p with
        | name s =>
            simp only [evalPropKey]
            exact Done_state m _ _ hle
        | computed e =>
            simp only [evalPropKey]
            rcases hr : evalExpr fuel cfg e scope st with ⟨rv, st2⟩
            have d := ihE e scope st hle
            rw [hr] at d
            simp only [hr]
            cases rv with
            | ok v => exact Done_state m _ _ (Done_not_tn d (by simp) (by simp))
            | exn v2 => exact Done_castErr d
            | brk l => exact Done_castErr d
            | cont l => exact Done_castErr d
            | ret v2 => exact Done_castErr d
            | noFuel => exact Done_castErr d
      · -- evalArgs
        intro es scope st hle
        cases es with
        | nil =>
            simp only [evalArgs]
            exact Done_state m _ _ hle
        | cons e rest =>
            simp only [evalArgs]
            rcases hr : evalExpr fuel cfg e scope st with ⟨rv, st2⟩
            have d := ihE e scope st hle
            rw [hr] at d
            simp only [hr]
            cases rv with
            | ok v =>
                have h2 : st2.opCount ≤ m := Done_not_tn d (by simp) (by simp)
                rcases hrs : evalArgs fuel cfg rest scope st2 with ⟨rs, st3⟩
                have d2 := ihA rest scope st2 h2
                rw [hrs] at d2
                simp only [hrs]
                cases rs with
                | ok vs => exact Done_state m _ _ (Done_not_tn d2 (by simp) (by simp))
                | exn v2 => exact d2
                | brk l => exact d2
                | cont l => exact d2
                | ret v2 => exact d2
                | noFuel => exact d2
            | exn v2 => exact Done_castErr d
            | brk l => exact Done_castErr d
            | cont l => exact Done_castErr d
            | ret v2 => exact Done_castErr d
            | noFuel => exact Done_castErr d
      · -- evalObjProps
        intro ps r scope st hle
        cases ps with
        | nil =>
            simp only [evalObjProps]
            exact Done_state m _ _ hle
        | cons kv rest =>
            obtain ⟨key, ve⟩ := kv
            simp only [evalObjProps]
            rcases hr : evalExpr fuel cfg ve scope st with ⟨rv, st2⟩
            have d := ihE ve scope st hle
            rw [hr] at d
            simp only [hr]
            cases rv with
            | ok v =>
                have h2 : st2.opCount ≤ m := Done_not_tn d (by simp) (by simp)
                rcases ho : st2.obj r with _ | o
                · simp only [ho]
                  exact ihOP rest r scope st2 h2
                · simp only [ho]
                  exact ihOP rest r scope _ (by rw [opCount_setObj]; exact h2)
            | exn v2 => exact Done_castErr d
            | brk l => exact Done_castErr d
            | cont l => exact Done_castErr d
            | ret v2 => exact Done_castErr d
            | noFuel => exact Done_castErr d
      · -- evalStmt
        intro s scope st hle
        by_cases ht : m < st.opCount + 1
        · right; right
          refine ⟨?_, ?_⟩ <;>
            simp [evalStmt, checkOps, hm, gt_iff_lt, ht, decide_True]
        · have hd : (decide (st.opCount + 1 > m)) = false := by
            simp [gt_iff_lt, ht]
          simp only [evalStmt, checkOps, hm, hd, Bool.false_eq_true, if_false]
          have hble : ({ st with opCount := st.opCount + 1, ghostEvals := st.ghostEvals + 1 } : St).opCount ≤ m := by
            show st.opCount + 1 ≤ m
            omega
          generalize hB : ({ st with opCount := st.opCount + 1, ghostEvals := st.ghostEvals + 1 } : St) = B
          rw [hB] at hble
          clear hB hd ht hle
          cases s with
          | exprStmt e => exact ihE e scope B hble
          | varDecl kind decls => exact ihVD kind decls scope B hble
          | funcDecl name params body => exact Done_state m _ _ hble
          | block body =>
              rcases haf : B.allocFrame (some scope) .block with ⟨bs, st2⟩
              have h2 : st2.opCount = B.opCount := by
                have h' := opCount_allocFrame B (some scope) .block
                rw [haf] at h'
                exact h'
              simp only [haf]
              exact ihSA body bs st2 .undef (by rw [h2]; exact hble)
          | whileStmt test body => exact ihW test body scope B .undef hble
          | breakStmt l => exact Done_state m _ _ hble
          | continueStmt l => exact Done_state m _ _ hble
          | returnStmt arg =>
              cases arg with
              | some e =>
                  rcases hr : evalExpr fuel cfg e scope B with ⟨rv, st2⟩
                  have d := ihE e scope B hble
                  rw [hr] at d
                  simp only [hr]
                  cases rv with
                  | ok v => exact Done_state m _ _ (Done_not_tn d (by simp) (by simp))
                  | exn v2 => exact d
                  | brk l => exact d
                  | cont l => exact d
                  | ret v2 => exact d
                  | noFuel => exact d
              | none => exact Done_state m _ _ hble
          | throwStmt e =>
              rcases hr : evalExpr fuel cfg e scope B with ⟨rv, st2⟩
              have d := ihE e scope B hble
              rw [hr] at d
              simp only [hr]
              cases rv with
              | ok v => exact Done_state m _ _ (Done_not_tn d (by simp) (by simp))
              | exn v2 => exact d
              | brk l => exact d
              | cont l => exact d
              | ret v2 => exact d
              | noFuel => exact d
          | tryStmt blk handler finalizer =>
              rcases hb : evalStmt fuel cfg blk scope B with ⟨rb, st2⟩
              have d := ihS blk scope B hble
              rw [hb] at d
              simp only [hb]
              cases rb with
              | noFuel => left; rfl
              | brk l => exact ihF finalizer scope st2 (.brk l) (Done_not_tn d (by simp) (by simp))
              | cont l => exact ihF finalizer scope st2 (.cont l) (Done_not_tn d (by simp) (by simp))
              | ret v => exact ihF finalizer scope st2 (.ret v) (Done_not_tn d (by simp) (by simp))
              | ok v => exact ihF finalizer scope st2 (.ok v) (Done_not_tn d (by simp) (by simp))
              | exn ev =>
                  rcases Done_exn d with h2 | ⟨hev, h2⟩
                  · cases handler with
                    | none => exact ihF finalizer scope st2 _ h2
                    | some pr =>
                        obtain ⟨param, hbody⟩ := pr
                        rcases haf : st2.allocFrame (some scope) .block with ⟨cs, st3⟩
                        have h3 : st3.opCount = st2.opCount := by
                          have h' := opCount_allocFrame st2 (some scope) .block
                          rw [haf] at h'
                          exact h'
                        simp only [haf]
                        cases param with
                        | some pn =>
                            rcases hh : evalStmt fuel cfg hbody cs (bindInFrame st3 cs pn ev) with ⟨rh, st5⟩
                            have d2 := ihS hbody cs (bindInFrame st3 cs pn ev)
                              (by rw [opCount_bindInFrame, h3]; exact h2)
                            rw [hh] at d2
                            simp only [hh]
                            cases rh with
                            | noFuel => left; rfl
                            | ok v => exact ihF finalizer scope st5 _ (Done_not_tn d2 (by simp) (by simp))
                            | brk l => exact ihF finalizer scope st5 _ (Done_not_tn d2 (by simp) (by simp))
                            | cont l => exact ihF finalizer scope st5 _ (Done_not_tn d2 (by simp) (by simp))
                            | ret v => exact ihF finalizer scope st5 _ (Done_not_tn d2 (by simp) (by simp))
                            | exn e2 =>
                                rcases Done_exn d2 with h5 | ⟨he2, h5⟩
                                · exact ihF finalizer scope st5 _ h5
                                · subst he2
                                  simp only [show (timeoutV = Value.null) = False from by simp [timeoutV], if_false]
                                  rcases runFinalizer_saturate m fuel cfg finalizer scope st5 hm h5 with h | ⟨h, h'⟩
                                  · exact Or.inl h
                                  · exact Or.inr (Or.inr ⟨h, h'⟩)
                        | none =>
                            rcases hh : evalStmt fuel cfg hbody cs st3 with ⟨rh, st5⟩
                            have d2 := ihS hbody cs st3 (by rw [h3]; exact h2)
                            rw [hh] at d2
                            simp only [hh]
                            cases rh with
                            | noFuel => left; rfl
                            | ok v => exact ihF finalizer scope st5 _ (Done_not_tn d2 (by simp) (by simp))
                            | brk l => exact ihF finalizer scope st5 _ (Done_not_tn d2 (by simp) (by simp))
                            | cont l => exact ihF finalizer scope st5 _ (Done_not_tn d2 (by simp) (by simp))
                            | ret v => exact ihF finalizer scope st5 _ (Done_not_tn d2 (by simp) (by simp))
                            | exn e2 =>
                                rcases Done_exn d2 with h5 | ⟨he2, h5⟩
                                · exact ihF finalizer scope st5 _ h5
                                · subst he2
                                  simp only [show (timeoutV = Value.null) = False from by simp [timeoutV], if_false]
                                  rcases runFinalizer_saturate m fuel cfg finalizer scope st5 hm h5 with h | ⟨h, h'⟩
                                  · exact Or.inl h
                                  · exact Or.inr (Or.inr ⟨h, h'⟩)
                  · subst hev
                    cases handler with
                    | none =>
                        simp only [show (timeoutV = Value.null) = False from by simp [timeoutV], if_false]
                        rcases runFinalizer_saturate m fuel cfg finalizer scope st2 hm h2 with h | ⟨h, h'⟩
                        · exact Or.inl h
                        · exact Or.inr (Or.inr ⟨h, h'⟩)
                    | some pr =>
                        obtain ⟨param, hbody⟩ := pr
                        rcases haf : st2.allocFrame (some scope) .block with ⟨cs, st3⟩
                        have h3 : m < st3.opCount := by
                          have h' := opCount_allocFrame st2 (some scope) .block
                          rw [haf] at h'
                          have h'' : st3.opCount = st2.opCount := h'
                          omega
                        simp only [haf]
                        cases param with
                        | some pn =>
                            cases fuel with
                            | zero => simp [evalStmt, Done]
                            | succ fuel2 =>
                                have hs := evalStmt_saturate m fuel2 cfg hbody cs
                                  (bindInFrame st3 cs pn timeoutV) hm
                                  (by rw [opCount_bindInFrame]; exact h3)
                                simp only [hs]
                                simp only [show (timeoutV = Value.null) = False from by simp [timeoutV], if_false]
                                have h4 : m < ((checkOps cfg (bindInFrame st3 cs pn timeoutV)).fst).opCount :=
                                  Nat.lt_succ_of_lt h3
                                rcases runFinalizer_saturate m (fuel2 + 1) cfg finalizer scope _ hm h4 with h | ⟨h, h'⟩
                                · exact Or.inl h
                                · exact Or.inr (Or.inr ⟨h, h'⟩)
                        | none =>
                            cases fuel with
                            | zero => simp [evalStmt, Done]
                            | succ fuel2 =>
                                have hs := evalStmt_saturate m fuel2 cfg hbody cs st3 hm h3
                                simp only [hs]
                                simp only [show (timeoutV = Value.null) = False from by simp [timeoutV], if_false]
                                have h4 : m < ((checkOps cfg st3).fst).opCount :=
                                  Nat.lt_succ_of_lt h3
                                rcases runFinalizer_saturate m (fuel2 + 1) cfg finalizer scope _ hm h4 with h | ⟨h, h'⟩
                                · exact Or.inl h
                                · exact Or.inr (Or.inr ⟨h, h'⟩)
      · -- runFinalizer
        intro fin scope st pending hle
        cases fin with
        | none =>
            simp only [runFinalizer]
            exact Done_state m _ _ hle
        | some f =>
            simp only [runFinalizer]
            rcases hr : evalStmt fuel cfg f scope st with ⟨rf, st2⟩
            have d := ihS f scope st hle
            rw [hr] at d
            simp only [hr]
            cases rf with
            | ok v => exact Done_state m _ _ (Done_not_tn d (by simp) (by simp))
            | exn v2 => exact d
            | brk l => exact d
            | cont l => exact d
            | ret v2 => exact d
            | noFuel => exact d
      · -- evalVarDecls
        intro kind decls scope st hle
        cases decls with
        | nil =>
            simp only [evalVarDecls]
            exact Done_state m _ _ hle
        | cons d0 rest =>
            obtain ⟨name, init⟩ := d0
            cases kind with
            | var =>
                cases init with
                | some e =>
                    simp only [evalVarDecls]
                    rcases hr : evalExpr fuel cfg e scope st with ⟨rv, st2⟩
                    have d := ihE e scope st hle
                    rw [hr] at d
                    simp only [hr]
                    cases rv with
                    | ok v =>
                        exact ihVD .var rest scope _
                          (by rw [opCount_declareVarF]; exact Done_not_tn d (by simp) (by simp))
                    | exn v2 => exact d
                    | brk l => exact d
                    | cont l => exact d
                    | ret v2 => exact d
                    | noFuel => exact d
                | none =>
                    simp only [evalVarDecls]
                    exact ihVD .var rest scope st hle
            | letK =>
                cases init with
                | some e =>
                    simp only [evalVarDecls]
                    rcases hr : evalExpr fuel cfg e scope st with ⟨rv, st2⟩
                    have d := ihE e scope st hle
                    rw [hr] at d
                    simp only [hr]
                    cases rv with
                    | ok v =>
                        exact ihVD .letK rest scope _
                          (by rw [opCount_declareLet]; exact Done_not_tn d (by simp) (by simp))
                    | exn v2 => exact d
                    | brk l => exact d
                    | cont l => exact d
                    | ret v2 => exact d
                    | noFuel => exact d
                | none =>
                    simp only [evalVarDecls]
                    exact ihVD .letK rest scope _ (by rw [opCount_declareLet]; exact hle)
            | constK =>
                cases init with
                | some e =>
                    simp only [evalVarDecls]
                    rcases hr : evalExpr fuel cfg e scope st with ⟨rv, st2⟩
                    have d := ihE e scope st hle
                    rw [hr] at d
                    simp only [hr]
                    cases rv with
                    | ok v =>
                        exact ihVD .constK rest scope _
                          (by rw [opCount_declareLet]; exact Done_not_tn d (by simp) (by simp))
                    | exn v2 => exact d
                    | brk l => exact d
                    | cont l => exact d
                    | ret v2 => exact d
                    | noFuel => exact d
                | none =>
                    simp only [evalVarDecls]
                    exact ihVD .constK rest scope _ (by rw [opCount_declareLet]; exact hle)
      · -- evalStmtsAcc
        intro stmts scope st acc hle
        cases stmts with
        | nil =>
            simp only [evalStmtsAcc]
            exact Done_state m _ _ hle
        | cons s rest =>
            simp only [evalStmtsAcc]
            rcases hr : evalStmt fuel cfg s scope st with ⟨r, st2⟩
            have d := ihS s scope st hle
            rw [hr] at d
            simp only [hr]
            cases r with
            | ok v => exact ihSA rest scope st2 v (Done_not_tn d (by simp) (by simp))
            | exn v2 => exact d
            | brk l => exact d
            | cont l => exact d
            | ret v2 => exact d
            | noFuel => exact d
      · -- evalWhile
        intro test body scope st acc hle
        simp only [evalWhile]
        rcases hrt : evalExpr fuel cfg test scope st with ⟨rt, st1⟩
        have d := ihE test scope st hle
        rw [hrt] at d
        simp only [hrt]
        cases rt with
        | ok tv =>
            have h1 : st1.opCount ≤ m := Done_not_tn d (by simp) (by simp)
            cases hj : jsTruthy tv with
            | true =>
                rcases hrb : evalStmt fuel cfg body scope st1 with ⟨rb, st2⟩
                have d2 := ihS body scope st1 h1
                rw [hrb] at d2
                simp only [hj, hrb, eq_self_iff_true, if_true]
                cases rb with
                | ok v => exact ihW test body scope st2 v (Done_not_tn d2 (by simp) (by simp))
                | cont l =>
                    cases l with
                    | none => exact ihW test body scope st2 acc (Done_not_tn d2 (by simp) (by simp))
                    | some lbl => exact d2
                | brk l =>
                    cases l with
                    | none => exact Done_state m _ _ (Done_not_tn d2 (by simp) (by simp))
                    | some lbl => exact d2
                | exn v2 => exact d2
                | ret v2 => exact d2
                | noFuel => exact d2
            | false =>
                simp only [hj, Bool.false_eq_true, if_false]
                exact Done_state m _ _ h1
        | exn v2 => exact d
        | brk l => exact d
        | cont l => exact d
        | ret v2 => exact d
        | noFuel => exact d
      · -- callFunction
        intro fv args tc st hle
        rcases fv with _ | _ | b | n | s1 | r | c1 | hf1 | msg | o1
        · simp only [callFunction]
          exact Done_state m _ _ hle
        · simp only [callFunction]
          exact Done_state m _ _ hle
        · simp only [callFunction]
          exact Done_state m _ _ hle
        · simp only [callFunction]
          exact Done_state m _ _ hle
        · simp only [callFunction]
          exact Done_state m _ _ hle
        · simp only [callFunction]
          rcases hf2 : (st.obj r).bind Obj.fn with _ | fd
          · simp only [hf2]
            exact Done_state m _ _ hle
          · by_cases hbt : fd.boundThis = Value.undef
            · simp only [hf2, if_neg (show ¬ (fd.boundThis ≠ Value.undef) from fun h => h hbt),
                St.allocFrame, St.alloc]
              have hgen : ∀ st7 : St, st7.opCount = st.opCount →
                  Done m (evalStmt fuel cfg fd.body (st.frames.length) st7) :=
                fun st7 hq => ihS fd.body st.frames.length st7 (by rw [hq]; exact hle)
              refine Done_tail m _ (hgen _ ?_)
              simp only [opCount_bindInFrame, opCount_bindParams]
              cases hn : fd.name <;> cases hbd : fd.body <;>
                simp only [opCount_hoistDecls, opCount_bindInFrame]
            · rcases hf3 : (st.obj (fd.original.getD r)).bind Obj.fn with _ | fd2
              · simp only [hf2, if_pos (show fd.boundThis ≠ Value.undef from hbt), hf3]
                exact Done_state m _ _ hle
              · simp only [hf2, if_pos (show fd.boundThis ≠ Value.undef from hbt), hf3,
                  St.allocFrame, St.alloc]
                have hgen : ∀ st7 : St, st7.opCount = st.opCount →
                    Done m (evalStmt fuel cfg fd2.body (st.frames.length) st7) :=
                  fun st7 hq => ihS fd2.body st.frames.length st7 (by rw [hq]; exact hle)
                refine Done_tail m _ (hgen _ ?_)
                simp only [opCount_bindInFrame, opCount_bindParams]
                cases hn : fd2.name <;> cases hbd : fd2.body <;>
                  simp only [opCount_hoistDecls, opCount_bindInFrame]
        · simp only [callFunction]
          exact Done_state m _ _ hle
        · simp only [callFunction]
          exact Done_state m _ _ hle
        · simp only [callFunction]
          exact Done_state m _ _ hle
        · simp only [callFunction]
          exact Done_state m _ _ hle
      · -- hostCall
        intro hf args st hle
        cases hf with
        | evalFn =>
            simp only [hostCall, hp]
            exact Done_state m _ _ hle
        | callAdapter f =>
            simp only [hostCall]
            exact ihCF (.ref f) (args.drop 1) (args.getD 0 .undef) st hle
        | bindAdapter f =>
            simp only [hostCall]
            rcases hfo : (st.obj f).bind Obj.fn with _ | fd
            · simp only [hfo]
              exact Done_state m _ _ hle
            · simp only [hfo]
              exact Done_state m _ _ (by rw [opCount_alloc]; exact hle)
        | boundCallAdapter b =>
            simp only [hostCall]
            rcases hfo : (st.obj b).bind Obj.fn with _ | fd
            · simp only [hfo]
              exact Done_state m _ _ hle
            · simp only [hfo]
              exact ihCF _ _ _ st hle
        | boundBindAdapter b =>
            simp only [hostCall]
            rcases hfo : (st.obj b).bind Obj.fn with _ | fd
            · simp only [hfo]
              exact Done_state m _ _ hle
            · simp only [hfo]
              cases hv : protoLookup (st.objs.length + 1) st (fd.original.getD b) "bind" with
              | host h2 => exact ihHC h2 _ st hle
              | undef => exact Done_state m _ _ hle
              | null => exact Done_state m _ _ hle
              | bool b2 => exact Done_state m _ _ hle
              | num n2 => exact Done_state m _ _ hle
              | str s2 => exact Done_state m _ _ hle
              | ref r2 => exact Done_state m _ _ hle
              | ctor c2 => exact Done_state m _ _ hle
              | hostErr msg => exact Done_state m _ _ hle
              | hostOpaque o2 => exact Done_state m _ _ hle
        | wrapped f =>
            simp only [hostCall]
            exact ihCF (.ref f) args .undef st hle
      · -- evalProgram
        intro prog scope st hle
        by_cases ht : m < st.opCount + 1
        · right; right
          refine ⟨?_, ?_⟩ <;>
            simp [evalProgram, checkOps, hm, gt_iff_lt, ht, decide_True]
        · have hd : (decide (st.opCount + 1 > m)) = false := by
            simp [gt_iff_lt, ht]
          simp only [evalProgram, checkOps, hm, hd, Bool.false_eq_true, if_false]
          exact ihSA prog.body scope _ _ (show st.opCount + 1 ≤ m by omega)

/-- Configuration for the op-ceiling witness: ceiling 3, no parser. -/
def c7WitCfg : Cfg :=
  { maxOps := some 3, parse := none }

/-- The one-statement program 1; for the op-ceiling witness. -/
def c7WitProg : Program :=
  ⟨[], [.exprStmt (.numLit 1)]⟩

/-- Claim C7 (corrected).  With a positive ceiling configured and no
parse callback (the default), any call to evaluate whose outcome is
neither the timeout error nor fuel exhaustion has performed at most
maxOps node evaluations since the counter reset at its start: its final
counter, which was reset to zero on entry and incremented once at the
head of each node evaluation, is at most maxOps.  Moreover evaluate
resets the counter: its behaviour is independent of the incoming
counter value. -/
theorem c7_op_ceiling (m : Nat) (cfg : Cfg) (hm : cfg.maxOps = some m)
    (hp : cfg.parse = none) (fuel : Nat) (prog : Program) (st : St)
    (hto : (evaluateF fuel cfg prog st).fst ≠ .exn timeoutV)
    (hnf : (evaluateF fuel cfg prog st).fst ≠ .noFuel) :
    (evaluateF fuel cfg prog st).snd.opCount ≤ m ∧
    (∀ n : Nat, evaluateF fuel cfg prog { st with opCount := n } =
      evaluateF fuel cfg prog st) := by
  cases fuel with
  | zero =>
      exfalso
      apply hnf
      simp [evaluateF]
  | succ fuel =>
      have heval : evaluateF (fuel + 1) cfg prog st =
          evalProgram fuel cfg prog 0
            (hoistDecls prog.body 0 { st with opCount := 0 }) := by
        simp only [evaluateF]
      rw [heval] at hto hnf
      refine ⟨?_, ?_⟩
      · rw [heval]
        have hPR := (opCeiling_all m cfg hm hp fuel).2.2.2.2.2.2.2.2.2.2.2
        have h0 : (hoistDecls prog.body 0 { st with opCount := 0 }).opCount ≤ m := by
          rw [opCount_hoistDecls]
          exact Nat.zero_le m
        rcases hPR prog 0 (hoistDecls prog.body 0 { st with opCount := 0 }) h0 with
          h | h | ⟨h, h'⟩
        · exact absurd h hnf
        · exact h
        · exact absurd h hto
      · intro n
        simp only [evaluateF]

/-- Claim C7, witness: with ceiling 3 the program 1; completes normally
after exactly 3 node evaluations (Program, ExpressionStatement, Literal),
so its final counter is within the ceiling, and evaluate ignores the
incoming counter value. -/
theorem c7_op_ceiling_witness :
    (evaluateF 10 c7WitCfg c7WitProg (mkInterp defaultGlobals)).snd.opCount ≤ 3 ∧
    (∀ n : Nat, evaluateF 10 c7WitCfg c7WitProg
        { mkInterp defaultGlobals with opCount := n } =
      evaluateF 10 c7WitCfg c7WitProg (mkInterp defaultGlobals)) :=
  c7_op_ceiling 3 c7WitCfg rfl rfl 10 c7WitProg (mkInterp defaultGlobals)
    (by simp [c7WitCfg, c7WitProg, evaluateF, evalProgram, evalStmtsAcc,
      evalStmt, evalExpr, mkInterp, checkOps, defaultGlobals, hoistDecls,
      timeoutV])
    (by simp [c7WitCfg, c7WitProg, evaluateF, evalProgram, evalStmtsAcc,
      evalStmt, evalExpr, mkInterp, checkOps, defaultGlobals, hoistDecls,
      timeoutV])

/-- Claim C7, counterexample.  With maxOps 8 and a parse callback, the
script eval("0"); 1; 2 performs 12 node evaluations in total (more than
maxOps), yet evaluate completes normally with value 2: the nested
evaluate inside the eval global resets the shared counter, which
therefore peaks at 7. -/
theorem c7_eval_reset_counterexample :
    (evaluateF 100 c7Cfg c7CexProg (mkInterp [])).fst = .ok (.num 2) ∧
    (evaluateF 100 c7Cfg c7CexProg (mkInterp [])).snd.ghostEvals = 12 ∧
    8 < 12 ∧
    (evaluateF 100 c7Cfg c7CexProg (mkInterp [])).fst ≠ .exn timeoutV := by
  refine ⟨?_, ?_, by decide, ?_⟩ <;>
    simp [c7CexProg, c7Cfg, c7InnerProg, runProg, evaluateF, evalProgram, evalStmtsAcc, evalStmt, evalExpr,
    evalPropKey, evalArgs, evalObjProps, evalVarDecls, evalWhile, callFunction,
    hostCall, runFinalizer, mkInterp, cfgDefault, checkOps,
    defaultGlobals, hostGet, hostSet, protoLookup, assocGet, assocSet,
    emptyObj, ctorIsBuiltin, builtinCtors, St.alloc, St.allocFrame, St.obj,
    St.setObj, St.frame, St.setVars, frameVars, bindInFrame, getVarF, setVarF,
    jsTruthy, nativeTypeof, propKeyOf, hoistDecls, hoistVarNames,
    createFunction, bindParams, argsObj, declareVarF, declareLet, varTargetF,
    wrapArg, timeoutV]

/-! Claim C8: bound-function forwarding. -/

set_option maxRecDepth 4000 in
/-- Claim C8, counterexample.  The claim asserts the forwarding
equivalence for every bound this, including undefined.  Binding
this = undefined and the argument 1, then calling with 2, yields 2
(the bound argument prefix is dropped because callFunction recognises
bound functions by boundThis !== undefined), while the claimed
equivalent direct call f(1, 2) yields 1. -/
theorem c8_bind_undefined_this_counterexample :
    runProg 100 cfgDefault c8BindProg = .ok (.num 2) ∧
    runProg 100 cfgDefault c8DirectProg = .ok (.num 1) ∧
    Res.ok (Value.num 2) ≠ (Res.ok (Value.num 1) : Res Value) := by
  refine ⟨?_, ?_, by decide⟩ <;>
    simp [c8BindProg, c8DirectProg, boundObjOf, boundFdOf, runProg, evaluateF, evalProgram, evalStmtsAcc, evalStmt, evalExpr,
    evalPropKey, evalArgs, evalObjProps, evalVarDecls, evalWhile, callFunction,
    hostCall, runFinalizer, mkInterp, cfgDefault, checkOps,
    defaultGlobals, hostGet, hostSet, protoLookup, assocGet, assocSet,
    emptyObj, ctorIsBuiltin, builtinCtors, St.alloc, St.allocFrame, St.obj,
    St.setObj, St.frame, St.setVars, frameVars, bindInFrame, getVarF, setVarF,
    jsTruthy, nativeTypeof, propKeyOf, hoistDecls, hoistVarNames,
    createFunction, bindParams, argsObj, declareVarF, declareLet, varTargetF,
    wrapArg, timeoutV]

/-- State after evaluating the object literal {} at op counter 1 on a
fresh default interpreter (used by the C1 witness): one empty heap
object and two counted node evaluations. -/
def c1WitSt2 : St :=
  { frames := [⟨none, defaultGlobals, .function⟩],
    objs := [⟨[], none, none⟩],
    opCount := 2,
    ghostEvals := 2 }

/-- Claim C1 (amended): for every MemberExpression read, (a) reading the
property name proto-dunder yields Undefined on any receiver; (b) reading
constructor on a non-null, non-undefined receiver whose constructor (as
read through the ambient lookup) is one of the nine built-in host
constructors yields Undefined; and (c) reading prototype is not
filtered: it is the ordinary ambient property lookup, which yields
Undefined exactly when the receiver has no prototype property (as is the
case for object-literal objects). -/
theorem c1_reflective_filter (fuel : Nat) (cfg : Cfg) (objE : Expr)
    (scope : Nat) (st st2 : St) (v : Value)
    (hop : (checkOps cfg st).snd = false)
    (hobj : evalExpr fuel cfg objE scope (checkOps cfg st).fst =
      (.ok v, st2)) :
    evalExpr (fuel + 1) cfg (.member objE (.name "__proto__")) scope st =
      (.ok .undef, st2) ∧
    ((v ≠ .null ∧ v ≠ .undef ∧ ctorIsBuiltin st2 v = true) →
      evalExpr (fuel + 1) cfg (.member objE (.name "constructor")) scope st =
        (.ok .undef, st2)) ∧
    evalExpr (fuel + 1) cfg (.member objE (.name "prototype")) scope st =
      (hostGet st2 v "prototype", st2) := by
  rcases hck : checkOps cfg st with ⟨st1, t⟩
  rw [hck] at hop hobj
  simp at hop
  subst hop
  match hfuel : fuel, hobj with
  | 0, hobj => simp [evalExpr] at hobj
  | fuel + 1, hobj =>
      refine ⟨?_, fun hv => ?_, ?_⟩
      · simp only [evalExpr, hck, Bool.false_eq_true, if_false, hobj,
          evalPropKey]
        simp
      · simp only [evalExpr, hck, Bool.false_eq_true, if_false, hobj,
          evalPropKey]
        simp [hv.1, hv.2.1, hv.2.2]
      · simp only [evalExpr, hck, Bool.false_eq_true, if_false, hobj,
          evalPropKey]
        simp

/-- Witness for `c1_reflective_filter`: the receiver {} (an empty object
literal) in the global scope of a fresh interpreter; its constructor
resolves to the built-in Object through the implicit prototype chain,
and it has no prototype property, so all three reads yield Undefined. -/
theorem c1_reflective_filter_witness :
    evalExpr 4 cfgDefault (.member (.objLit []) (.name "__proto__")) 0
        (mkInterp []) = (.ok .undef, c1WitSt2) ∧
    evalExpr 4 cfgDefault (.member (.objLit []) (.name "constructor")) 0
        (mkInterp []) = (.ok .undef, c1WitSt2) ∧
    evalExpr 4 cfgDefault (.member (.objLit []) (.name "prototype")) 0
        (mkInterp []) = (hostGet c1WitSt2 (.ref 0) "prototype", c1WitSt2) ∧
    hostGet c1WitSt2 (.ref 0) "prototype" = .ok .undef := by
  have h := c1_reflective_filter 3 cfgDefault (.objLit []) 0 (mkInterp [])
    c1WitSt2 (.ref 0) rfl
    (by simp [evalExpr, evalObjProps, checkOps, mkInterp, cfgDefault,
      St.alloc, emptyObj, c1WitSt2, defaultGlobals])
  exact ⟨h.1, h.2.1 ⟨by decide, by decide, by decide⟩, h.2.2, by decide⟩

/-- The environment state right before the body evaluation inside
`callFunction`, for an unbound, anonymous function record with a block
body: the fresh function frame on the captured closure, hoisted body,
bound parameters, the arguments object, and the this binding.  Used to
state properties of the body-result handling. -/
def callBodySt (fd : FnData) (bodyStmts : List Stmt) (args : List Value)
    (tc : Value) (st : St) : St :=
  let fs := st.frames.length
  let st1 := (st.allocFrame (some fd.closure) .function).snd
  let st3 := hoistDecls bodyStmts fs st1
  let st4 := bindParams fd.params args fs st3
  let st6 := bindInFrame (st4.alloc (argsObj args)).snd fs "arguments"
    (.ref st4.objs.length)
  bindInFrame st6 fs "this" tc

/-- Claim C3: control-flow opacity.  (i) When the try block of a try
statement completes with a control-flow signal (break, continue or
return), the catch handler — present or not — is never executed, the
finalizer is executed exactly once, and the signal is the result of the
try statement (it propagates).  (ii) An unlabelled break signal reaching
an enclosing while loop terminates it with the accumulated result.
(iii) An unlabelled continue signal reaching an enclosing while loop
resumes iteration.  (iv) A return signal reaching the function caller
becomes the call's result value. -/
theorem c3_controlflow_opacity (fuel : Nat) (cfg : Cfg) :
    (∀ (blk fin : Stmt) (handler : Option (Option String × Stmt))
        (scope : Nat) (st st2 st3 : St) (s : Res Value) (w : Value),
      (checkOps cfg st).snd = false →
      evalStmt (fuel + 1) cfg blk scope (checkOps cfg st).fst = (s, st2) →
      s.isCF = true →
      evalStmt fuel cfg fin scope st2 = (.ok w, st3) →
      evalStmt (fuel + 2) cfg (.tryStmt blk handler (some fin)) scope st =
        (s, st3)) ∧
    (∀ (test : Expr) (body : Stmt) (scope : Nat) (acc tv : Value)
        (st' st1' st2' : St),
      evalExpr fuel cfg test scope st' = (.ok tv, st1') →
      jsTruthy tv = true →
      evalStmt fuel cfg body scope st1' = (.brk none, st2') →
      evalWhile (fuel + 1) cfg test body scope st' acc = (.ok acc, st2')) ∧
    (∀ (test : Expr) (body : Stmt) (scope : Nat) (acc tv : Value)
        (st' st1' st2' : St),
      evalExpr fuel cfg test scope st' = (.ok tv, st1') →
      jsTruthy tv = true →
      evalStmt fuel cfg body scope st1' = (.cont none, st2') →
      evalWhile (fuel + 1) cfg test body scope st' acc =
        evalWhile fuel cfg test body scope st2' acc) ∧
    (∀ (r : Nat) (fd : FnData) (args : List Value) (tc v : Value)
        (bodyStmts : List Stmt) (st st8 : St),
      (st.obj r).bind Obj.fn = some fd →
      fd.boundThis = .undef →
      fd.name = none →
      fd.body = .block bodyStmts →
      evalStmt fuel cfg fd.body st.frames.length
          (callBodySt fd bodyStmts args tc st) = (.ret v, st8) →
      callFunction (fuel + 1) cfg (.ref r) args tc st = (.ok v, st8)) := by
  refine ⟨?_, ?_, ?_, ?_⟩
  · intro blk fin handler scope st st2 st3 s w hop hblk hcf hfin
    rcases hck : checkOps cfg st with ⟨st1, t⟩
    rw [hck] at hop hblk
    simp at hop
    subst hop
    cases s with
    | brk l =>
        simp only [evalStmt, hck, Bool.false_eq_true, if_false, hblk,
          runFinalizer, hfin]
    | cont l =>
        simp only [evalStmt, hck, Bool.false_eq_true, if_false, hblk,
          runFinalizer, hfin]
    | ret v =>
        simp only [evalStmt, hck, Bool.false_eq_true, if_false, hblk,
          runFinalizer, hfin]
    | ok v => simp [Res.isCF] at hcf
    | exn v => simp [Res.isCF] at hcf
    | noFuel => simp [Res.isCF] at hcf
  · intro test body scope acc tv st' st1' st2' htest htv hbody
    simp only [evalWhile, htest, htv, if_true, hbody]
  · intro test body scope acc tv st' st1' st2' htest htv hbody
    simp only [evalWhile, htest, htv, if_true, hbody]
  · intro r fd args tc v bodyStmts st st8 hfd hunbound hname hblock hbody
    simp only [callBodySt, St.allocFrame, St.alloc] at hbody
    simp only [callFunction, hfd, Option.bind_some, hunbound, ne_eq,
      not_true_eq_false, if_false, hname, hblock, St.allocFrame, St.alloc]
    rw [hblock] at hbody
    simp only [hbody]

/-- Function record of the C3 witness: an argumentless anonymous
function whose body is return 7, closing over the global frame. -/
def c3WitFd : FnData :=
  { params := [], body := .block [.returnStmt (some (.numLit 7))],
    closure := 0, name := none, boundThis := .undef, boundArgs := [],
    original := none }

/-- Heap state of the C3 witness: a fresh interpreter after
materialising the witness function (prototype object at address 0,
function object at address 1). -/
def c3WitSt : St :=
  (createFunction (mkInterp []) none [] [.returnStmt (some (.numLit 7))]
    0).snd

/-- Witness for `c3_controlflow_opacity`: (i) try { break; } catch {}
finally {} propagates the break past the unexecuted handler; (ii)/(iii)
while (true) loops whose bodies are a bare break and a bare continue;
(iv) an argumentless function whose body is return 7. -/
theorem c3_controlflow_opacity_witness :
    (evalStmt 8 cfgDefault
      (.tryStmt (.breakStmt none) (some (none, .block []))
        (some (.block []))) 0 (mkInterp [])).fst = .brk none ∧
    (evalWhile 7 cfgDefault (.boolLit true) (.breakStmt none) 0
      (mkInterp []) .undef).fst = .ok .undef ∧
    evalWhile 7 cfgDefault (.boolLit true) (.continueStmt none) 0
        (mkInterp []) .undef =
      evalWhile 6 cfgDefault (.boolLit true) (.continueStmt none) 0
        (evalStmt 6 cfgDefault (.continueStmt none) 0
          (evalExpr 6 cfgDefault (.boolLit true) 0 (mkInterp [])).snd).snd
        .undef ∧
    (callFunction 7 cfgDefault (.ref 1) [] .undef c3WitSt).fst =
      .ok (.num 7) := by
  have h := c3_controlflow_opacity 6 cfgDefault
  refine ⟨?_, ?_, ?_, ?_⟩
  · rw [h.1 (.breakStmt none) (.block []) (some (none, .block [])) 0
      (mkInterp [])
      (evalStmt 7 cfgDefault (.breakStmt none) 0
        (checkOps cfgDefault (mkInterp [])).fst).snd
      (evalStmt 6 cfgDefault (.block []) 0
        (evalStmt 7 cfgDefault (.breakStmt none) 0
          (checkOps cfgDefault (mkInterp [])).fst).snd).snd
      (.brk none) .undef rfl
      (by simp [evalStmt, checkOps, mkInterp, cfgDefault])
      rfl
      (by simp [evalStmt, evalStmtsAcc, checkOps, mkInterp, cfgDefault,
        St.allocFrame])]
  · rw [h.2.1 (.boolLit true) (.breakStmt none) 0 .undef (.bool true)
      (mkInterp [])
      (evalExpr 6 cfgDefault (.boolLit true) 0 (mkInterp [])).snd
      (evalStmt 6 cfgDefault (.breakStmt none) 0
        (evalExpr 6 cfgDefault (.boolLit true) 0 (mkInterp [])).snd).snd
      (by simp [evalExpr, checkOps, mkInterp, cfgDefault]) rfl
      (by simp [evalStmt, checkOps, mkInterp, cfgDefault])]
  · exact h.2.2.1 (.boolLit true) (.continueStmt none) 0 .undef (.bool true)
      (mkInterp [])
      (evalExpr 6 cfgDefault (.boolLit true) 0 (mkInterp [])).snd
      (evalStmt 6 cfgDefault (.continueStmt none) 0
        (evalExpr 6 cfgDefault (.boolLit true) 0 (mkInterp [])).snd).snd
      (by simp [evalExpr, checkOps, mkInterp, cfgDefault]) rfl
      (by simp [evalStmt, checkOps, mkInterp, cfgDefault])
  · rw [h.2.2.2 1 c3WitFd [] .undef (.num 7)
      [.returnStmt (some (.numLit 7))] c3WitSt
      (evalStmt 6 cfgDefault c3WitFd.body 1
        (callBodySt c3WitFd [.returnStmt (some (.numLit 7))] [] .undef
          c3WitSt)).snd
      rfl rfl rfl rfl
      (by simp [evalStmt, evalStmtsAcc, evalExpr, checkOps, cfgDefault,
        callBodySt, c3WitSt, c3WitFd, mkInterp, defaultGlobals,
        St.allocFrame, St.alloc, hoistDecls, bindParams, argsObj,
        bindInFrame, frameVars, St.frame, St.setVars, assocSet,
        createFunction, emptyObj])]

/-- Claim C5 (amended): a NewExpression on an interpreted constructor
creates a fresh object whose prototype link is the function's prototype
property, invokes the function with that object as this, and returns the
function's return value exactly when it is defined and of native object
type — a classification that includes the primitive null (and script
objects), and excludes undefined, numbers, strings, booleans and host
callables; in every other case the fresh instance is returned. -/
theorem c5_new_result_classification (fuel : Nat) (cfg : Cfg)
    (calleeE : Expr) (argEs : List Expr) (scope : Nat)
    (st st2 st3 st4 : St) (r p : Nat) (avs : List Value) (res : Value)
    (fd : FnData)
    (hop : (checkOps cfg st).snd = false)
    (hcallee : evalExpr fuel cfg calleeE scope (checkOps cfg st).fst =
      (.ok (.ref r), st2))
    (hargs : evalArgs fuel cfg argEs scope st2 = (.ok avs, st3))
    (hfn : (st3.obj r).bind Obj.fn = some fd)
    (hproto : hostGet st3 (.ref r) "prototype" = .ok (.ref p))
    (hcall : callFunction fuel cfg (.ref r) avs (.ref st3.objs.length)
        { st3 with objs := st3.objs ++ [emptyObj (some p)] } =
      (.ok res, st4)) :
    evalExpr (fuel + 1) cfg (.newE calleeE argEs) scope st =
      (.ok (if res ≠ .undef ∧ nativeTypeof res = "object" then res
        else .ref st3.objs.length), st4) := by
  rcases hck : checkOps cfg st with ⟨st1, t⟩
  rw [hck] at hop hcallee
  simp at hop
  subst hop
  simp only [emptyObj] at hcall
  simp only [evalExpr, hck, Bool.false_eq_true, if_false, hcallee, hargs,
    hfn, hproto, jsTruthy, if_true, St.alloc, emptyObj, hcall]

/-- Constructor function of the C5 witness: function C() { return null; }
materialised on a fresh interpreter and bound to the global name C
(prototype object at address 0, function object at address 1). -/
def c5WitSt : St :=
  bindInFrame
    (createFunction (mkInterp []) none [] [.returnStmt (some .nullLit)]
      0).snd
    0 "C" (.ref 1)

/-- State after the NewExpression node's own op check on the C5 witness
state. -/
def c5WitSt1 : St :=
  (checkOps cfgDefault c5WitSt).fst

/-- State after additionally evaluating the callee identifier C (one
more counted node evaluation). -/
def c5WitSt2 : St :=
  (checkOps cfgDefault c5WitSt1).fst

/-- Witness for `c5_new_result_classification`: new C() for the null
returning constructor — the constructor's null return value is of native
object type, so null (not the fresh instance at address 2) is the
result. -/
theorem c5_new_result_classification_witness :
    evalExpr 7 cfgDefault (.newE (.ident "C") []) 0 c5WitSt =
      (.ok .null,
        (callFunction 6 cfgDefault (.ref 1) [] (.ref 2)
          { c5WitSt2 with objs := c5WitSt2.objs ++ [emptyObj (some 0)] }).snd) := by
  have h := c5_new_result_classification 6 cfgDefault (.ident "C") [] 0
    c5WitSt c5WitSt2 c5WitSt2
    (callFunction 6 cfgDefault (.ref 1) [] (.ref 2)
      { c5WitSt2 with objs := c5WitSt2.objs ++ [emptyObj (some 0)] }).snd
    1 0 [] .null
    { params := [], body := .block [.returnStmt (some .nullLit)],
      closure := 0, name := none, boundThis := .undef, boundArgs := [],
      original := none }
    rfl
    (by simp [evalExpr, getVarF, checkOps, c5WitSt, c5WitSt1, c5WitSt2,
      mkInterp, cfgDefault, createFunction, bindInFrame, frameVars,
      St.frame, St.setVars, assocSet, assocGet, defaultGlobals, emptyObj,
      St.alloc])
    (by simp [evalArgs])
    rfl rfl
    (by simp [callFunction, evalStmt, evalStmtsAcc, evalExpr, checkOps,
      cfgDefault, c5WitSt, c5WitSt1, c5WitSt2, mkInterp, createFunction,
      bindInFrame, frameVars, St.frame, St.setVars, assocSet, assocGet,
      defaultGlobals, emptyObj, St.alloc, St.allocFrame, hoistDecls,
      bindParams, argsObj, St.obj])
  simpa [c5WitSt1] using h

/-- Claim C8 (amended): for every unbound interpreted function f and
every bound this t other than undefined, invoking the result of
f.bind(t, a0, a1) with further arguments is the same evaluation —
result and state — as invoking f with this = t and the bound arguments
prepended; and calling bind on the already-bound function extends the
bound argument prefix while keeping the original bound this, ignoring
the new this argument.  (For t = undefined the forwarding fails — see
the counterexample — because callFunction recognises bound functions by
boundThis !== undefined.) -/
theorem c8_bound_forwarding (fuel : Nat) (cfg : Cfg) (st st1 : St)
    (f b : Nat) (fd : FnData) (t a0 a1 t2 tc : Value) (cs newArgs : List Value)
    (hfd : (st.obj f).bind Obj.fn = some fd)
    (hunbound : fd.boundThis = .undef)
    (ht : t ≠ .undef)
    (hbind : hostCall (fuel + 1) cfg (.bindAdapter f) [t, a0, a1] st =
      (.ok (.ref b), st1)) :
    callFunction fuel cfg (.ref b) cs tc st1 =
      callFunction fuel cfg (.ref f) ([a0, a1] ++ cs) t st1 ∧
    (protoLookup (st1.objs.length + 1) st1 f "bind" =
        .host (.bindAdapter f) →
      hostCall (fuel + 1) cfg (.boundBindAdapter b) (t2 :: newArgs) st1 =
        hostCall fuel cfg (.bindAdapter f) (t :: ([a0, a1] ++ newArgs)) st1) := by
  have hvalid : ∃ o, st.objs[f]? = some o ∧ o.fn = some fd := by
    rcases ho : st.obj f with _ | o
    · rw [St.obj] at ho; rw [St.obj, ho] at hfd; simp at hfd
    · rw [St.obj] at ho; rw [St.obj, ho] at hfd
      exact ⟨o, ho, by simpa using hfd⟩
  rcases hvalid with ⟨o, ho, hofn⟩
  have hflt : f < st.objs.length := by
    by_contra hge
    rw [List.getElem?_eq_none_iff.mpr (by omega)] at ho
    exact absurd ho (by simp)
  simp only [hostCall, hfd, St.alloc, Prod.mk.injEq, Res.ok.injEq,
    Value.ref.injEq] at hbind
  simp at hbind
  obtain ⟨hb, hst1⟩ := hbind
  subst hb
  subst hst1
  have hobjb : (({ st with objs := st.objs ++ [boundObjOf st.objs.length f fd
      t [a0, a1]]} : St).obj st.objs.length).bind Obj.fn =
      some (boundFdOf f fd t [a0, a1]) := by
    simp [St.obj, boundObjOf]
  have hobjf : (({ st with objs := st.objs ++ [boundObjOf st.objs.length f fd
      t [a0, a1]]} : St).obj f).bind Obj.fn = some fd := by
    simp only [St.obj, List.getElem?_append_left hflt]
    exact hfd
  constructor
  · match fuel with
    | 0 => simp only [callFunction]
    | fuel + 1 =>
        simp only [callFunction, hobjb, hobjf, boundFdOf, Option.getD_some,
          ne_eq]
        simp only [ht, hunbound, not_false_eq_true, if_true,
          not_true_eq_false, if_false, Option.getD_some, hobjf]
  · intro hbindprop
    simp only [hostCall, hobjb, boundFdOf, Option.getD_some, hbindprop,
      List.drop_succ_cons, List.drop_zero]


/-- Function record of the C8 witness: function (x) { return x; }
closing over the global frame. -/
def c8WitFd : FnData :=
  { params := ["x"], body := .block [.returnStmt (some (.ident "x"))],
    closure := 0, name := none, boundThis := .undef, boundArgs := [],
    original := none }

/-- Heap state of the C8 witness: a fresh interpreter after
materialising the witness function (function object at address 1). -/
def c8WitSt : St :=
  (createFunction (mkInterp []) none ["x"] [.returnStmt (some (.ident "x"))]
    0).snd

/-- Heap state after f.bind(0, 10, 11): the bound function object lives
at address 2. -/
def c8WitSt1 : St :=
  { c8WitSt with
    objs := c8WitSt.objs ++ [boundObjOf 2 1 c8WitFd (.num 0) [.num 10, .num 11]] }

/-- Witness for `c8_bound_forwarding`: f bound with this = 0 and
arguments (10, 11), invoked with (2); and the bound function re-bound
with a new this 5 and the argument (3). -/
theorem c8_bound_forwarding_witness :
    callFunction 5 cfgDefault (.ref 2) [.num 2] .undef c8WitSt1 =
      callFunction 5 cfgDefault (.ref 1) [.num 10, .num 11, .num 2] (.num 0)
        c8WitSt1 ∧
    hostCall 6 cfgDefault (.boundBindAdapter 2) [.num 5, .num 3] c8WitSt1 =
      hostCall 5 cfgDefault (.bindAdapter 1) [.num 0, .num 10, .num 11, .num 3]
        c8WitSt1 := by
  have h := c8_bound_forwarding 5 cfgDefault c8WitSt c8WitSt1 1 2 c8WitFd
    (.num 0) (.num 10) (.num 11) (.num 5) .undef [.num 2] [.num 3]
    rfl rfl (by decide)
    (by simp [hostCall, c8WitSt1, c8WitSt, c8WitFd, boundObjOf, boundFdOf,
      createFunction, mkInterp, St.alloc, St.obj, emptyObj, defaultGlobals])
  exact ⟨h.1, by simpa using h.2 (by decide)⟩

/-! Claim C10: try/finally with a thrown null. -/

/-- Claim C10: for a try statement with a finalizer and no catch handler,
a thrown null is swallowed — the statement completes normally with
Undefined — while every other thrown value is re-raised after the
finalizer.  The source initialises caughtError to null, so the check
caughtError !== null after the finalizer cannot distinguish "nothing
caught" from "null caught". -/
theorem c10_try_finally_null_swallow (fuel : Nat) (cfg : Cfg)
    (blk fin : Stmt) (scope : Nat) (st st2 st3 : St) (ev w : Value)
    (hop : (checkOps cfg st).snd = false)
    (hblk : evalStmt (fuel + 1) cfg blk scope (checkOps cfg st).fst =
      (.exn ev, st2))
    (hfin : evalStmt fuel cfg fin scope st2 = (.ok w, st3)) :
    evalStmt (fuel + 2) cfg (.tryStmt blk none (some fin)) scope st =
      ((if ev = .null then Res.ok Value.undef else Res.exn ev), st3) := by
  rcases hck : checkOps cfg st with ⟨st1, t⟩
  rw [hck] at hop hblk
  simp at hop
  subst hop
  simp only [evalStmt, hck, Bool.false_eq_true, if_false, hblk, runFinalizer,
    hfin]

/-- Witness for `c10_try_finally_null_swallow`: the try statements
try { throw null; } finally {} and try { throw 3; } finally {} in the
global scope of a fresh interpreter. -/
theorem c10_try_finally_null_swallow_witness :
    evalStmt 6 cfgDefault
        (.tryStmt (.block [.throwStmt .nullLit]) none (some (.block []))) 0
        (mkInterp []) =
      (.ok .undef,
        (evalStmt 4 cfgDefault (.block []) 0
          (evalStmt 5 cfgDefault (.block [.throwStmt .nullLit]) 0
            (checkOps cfgDefault (mkInterp [])).fst).snd).snd) ∧
    evalStmt 6 cfgDefault
        (.tryStmt (.block [.throwStmt (.numLit 3)]) none (some (.block []))) 0
        (mkInterp []) =
      (.exn (.num 3),
        (evalStmt 4 cfgDefault (.block []) 0
          (evalStmt 5 cfgDefault (.block [.throwStmt (.numLit 3)]) 0
            (checkOps cfgDefault (mkInterp [])).fst).snd).snd) := by
  constructor
  · have h := c10_try_finally_null_swallow 4 cfgDefault
      (.block [.throwStmt .nullLit]) (.block []) 0 (mkInterp [])
      (evalStmt 5 cfgDefault (.block [.throwStmt .nullLit]) 0
        (checkOps cfgDefault (mkInterp [])).fst).snd
      (evalStmt 4 cfgDefault (.block []) 0
        (evalStmt 5 cfgDefault (.block [.throwStmt .nullLit]) 0
          (checkOps cfgDefault (mkInterp [])).fst).snd).snd
      .null .undef rfl
      (by simp [evalStmt, evalStmtsAcc, evalExpr, checkOps, mkInterp,
        cfgDefault, St.allocFrame])
      (by simp [evalStmt, evalStmtsAcc, checkOps, mkInterp, cfgDefault,
        St.allocFrame])
    simpa using h
  · have h := c10_try_finally_null_swallow 4 cfgDefault
      (.block [.throwStmt (.numLit 3)]) (.block []) 0 (mkInterp [])
      (evalStmt 5 cfgDefault (.block [.throwStmt (.numLit 3)]) 0
        (checkOps cfgDefault (mkInterp [])).fst).snd
      (evalStmt 4 cfgDefault (.block []) 0
        (evalStmt 5 cfgDefault (.block [.throwStmt (.numLit 3)]) 0
          (checkOps cfgDefault (mkInterp [])).fst).snd).snd
      (.num 3) .undef rfl
      (by simp [evalStmt, evalStmtsAcc, evalExpr, checkOps, mkInterp,
        cfgDefault, St.allocFrame])
      (by simp [evalStmt, evalStmtsAcc, checkOps, mkInterp, cfgDefault,
        St.allocFrame])
    simpa using h

/-! Claim C9: the eval global and the op counter. -/

/-- Claim C9: with a parse callback configured, invoking the default
global eval on a code string is exactly a recursive evaluate of the
parsed program, and evaluate is insensitive to the incoming op counter
(it resets it to zero), so node evaluations performed before the eval
call no longer count toward the ceiling for the remainder; the default
globals table binds eval to this host function. -/
theorem c9_eval_resets_counter (fuel n : Nat) (cfg : Cfg)
    (p : String → Program) (code : String) (args : List Value) (st : St)
    (prog : Program)
    (hparse : cfg.parse = some p) :
    hostCall (fuel + 1) cfg .evalFn (.str code :: args) st =
      evaluateF fuel cfg (p code) st ∧
    evaluateF (fuel + 1) cfg prog { st with opCount := n } =
      evaluateF (fuel + 1) cfg prog { st with opCount := 0 } ∧
    assocGet (frameVars (mkInterp []) 0) "eval" = some (.host .evalFn) := by
  refine ⟨?_, ?_, by decide⟩
  · simp [hostCall, hparse, List.getD]
  · simp only [evaluateF]

/-- Configuration used by the C9 witness: no ceiling, and a parser that
echoes the code string back as a single string-literal program. -/
def c9WitCfg : Cfg :=
  { maxOps := none, parse := some (fun s => ⟨[], [.exprStmt (.strLit s)]⟩) }

/-- Witness for `c9_eval_resets_counter`: a configuration whose parser
echoes the code string as a string-literal program, applied at counter
value 5. -/
theorem c9_eval_resets_counter_witness :
    hostCall 4 c9WitCfg .evalFn [.str "hi"] (mkInterp []) =
      evaluateF 3 c9WitCfg ⟨[], [.exprStmt (.strLit "hi")]⟩ (mkInterp []) ∧
    evaluateF 4 c9WitCfg ⟨[], []⟩ { mkInterp [] with opCount := 5 } =
      evaluateF 4 c9WitCfg ⟨[], []⟩ { mkInterp [] with opCount := 0 } ∧
    assocGet (frameVars (mkInterp []) 0) "eval" = some (.host .evalFn) := by
  have h := c9_eval_resets_counter 3 5 c9WitCfg
    (fun s => ⟨[], [.exprStmt (.strLit s)]⟩) "hi" [] (mkInterp [])
    ⟨[], []⟩ rfl
  simpa using h

end JailJS
